import Mathlib

/-!
Verification of the ioBroker.byd protocol stack: the bangcle envelope cipher
(`lib/bangcle.js`), the signed-envelope codec helpers (`lib/bydapi.js`) and the
command/session orchestration of `main.js`, shallowly embedded in Lean.

Byte sequences are `List Nat` (each element a byte value `< 256`), JavaScript
strings are `List Char`, and fallible functions return `Except String _`
mirroring `throw new Error(...)`.
-/

namespace Byd

/-! ## PKCS#7 padding (`lib/bangcle.js` lines 313-333) -/

/-- `stripPkcs7(buffer)` from `lib/bangcle.js`.  The JS loop
`for (let i = buffer.length - pad; i < buffer.length; i++)` reads
`buffer[i] !== pad`; when `pad > buffer.length` the first index is negative so
the read yields `undefined` and the buffer is returned unchanged, hence the
`pad ≤ l.length` conjunct. -/
def stripPkcs7 (l : List Nat) : List Nat :=
  match l.getLast? with
  | none => l
  | some pad =>
    if pad = 0 ∨ pad > 16 then l
    else if pad ≤ l.length ∧ (l.drop (l.length - pad)).all (fun b => b = pad) then
      l.take (l.length - pad)
    else l

/-- `addPkcs7(buffer, blockSize = 16)` from `lib/bangcle.js`. -/
def addPkcs7 (l : List Nat) : List Nat :=
  let remainder := l.length % 16
  let pad := if remainder = 0 then 16 else 16 - remainder
  l ++ List.replicate pad pad

/-! ## JavaScript value model for `lib/bydapi.js` readiness predicates

`isRealtimeDataReady` applies JavaScript `Number(...)` to fields of the decoded
poll response and compares the result.  We model a field value as either
`undefined`, a number, or a string; `Number` maps `undefined` to `NaN`
(modelled as `none`), numbers to themselves, integer-valued strings to the
integer, the empty/whitespace string to `0`, and every other string to `NaN`.
Comparisons against `NaN` are `false`. -/

inductive JSVal where
  | undef : JSVal
  | num (n : Int) : JSVal
  | str (s : String) : JSVal
  deriving DecidableEq, Repr

/-- Parse the digits of a decimal string (no sign). -/
def parseDigits : List Char → Option Nat
  | [] => none
  | l =>
    if l.all (fun c => c.isDigit) then
      some (l.foldl (fun acc c => acc * 10 + (c.toNat - 48)) 0)
    else none

/-- JavaScript `Number(s)` for a string, restricted to integer literals: leading
and trailing whitespace is trimmed, the empty string converts to `0`, an
optional sign followed by digits converts to the signed integer, and anything
else to `NaN` (`none`). -/
def jsStringToNumber (s : String) : Option Int :=
  let t := (s.toList.dropWhile (fun c => c = ' ')).reverse.dropWhile (fun c => c = ' ') |>.reverse
  match t with
  | [] => some 0
  | c :: rest =>
    if c = '-' then (parseDigits rest).map (fun n => -(n : Int))
    else if c = '+' then (parseDigits rest).map (fun n => (n : Int))
    else (parseDigits t).map (fun n => (n : Int))

/-- JavaScript `Number(v)`: `undefined → NaN`, numbers unchanged, strings via
`jsStringToNumber`.  `none` stands for `NaN`. -/
def jsNumber : JSVal → Option Int
  | .undef => none
  | .num n => some n
  | .str s => jsStringToNumber s

/-- `x > 0` in JavaScript where `x` may be `NaN` (then the comparison is
`false`). -/
def jsGtZero : Option Int → Bool
  | none => false
  | some n => decide (0 < n)

/-- The decoded realtime poll response, restricted to the fields read by
`isRealtimeDataReady` (`lib/bydapi.js` lines 488-511); a missing field is
`JSVal.undef`. -/
structure VehicleInfo where
  onlineState : JSVal := .undef
  leftFrontTirepressure : JSVal := .undef
  rightFrontTirepressure : JSVal := .undef
  leftRearTirepressure : JSVal := .undef
  rightRearTirepressure : JSVal := .undef
  time : JSVal := .undef
  enduranceMileage : JSVal := .undef
  deriving DecidableEq, Repr

/-- The four tire-pressure accessors, in the order of the `tireFields` array of
`lib/bydapi.js`. -/
def tireFields : List (VehicleInfo → JSVal) :=
  [VehicleInfo.leftFrontTirepressure, VehicleInfo.rightFrontTirepressure,
   VehicleInfo.leftRearTirepressure, VehicleInfo.rightRearTirepressure]

/-- `isRealtimeDataReady(vehicleInfo)` from `lib/bydapi.js` lines 488-511.
`none` models a falsy / non-object argument. -/
def isRealtimeDataReady : Option VehicleInfo → Bool
  | none => false
  | some v =>
    if jsNumber v.onlineState = some 2 then false
    else if tireFields.any (fun f => jsGtZero (jsNumber (f v))) then true
    else if jsGtZero (jsNumber v.time) then true
    else if jsGtZero (jsNumber v.enduranceMileage) then true
    else false

/-! ## Error-code classifiers (`lib/bydapi.js` lines 9-22 and 546-569) -/

/-- `SESSION_EXPIRED_CODES` membership, `isSessionExpired(code)`. -/
def isSessionExpired (code : String) : Bool :=
  code = "1005" || code = "1010"

/-- `isRateLimited(code)` against `RATE_LIMIT_CODE = '6024'`. -/
def isRateLimited (code : String) : Bool :=
  code = "6024"

/-- `isControlPasswordError(code)` against the keys of
`CONTROL_PASSWORD_ERRORS`. -/
def isControlPasswordError (code : String) : Bool :=
  code = "5005" || code = "5006"

/-- `isEndpointNotSupported(code)` against
`ENDPOINT_NOT_SUPPORTED_CODE = '1001'`. -/
def isEndpointNotSupported (code : String) : Bool :=
  code = "1001"

/-- Modelled from the spec: `bydapi.isRemoteControlServiceError` is called by
`main.js` line 1845 but is not defined in `src/lib/bydapi.js`; the spec lists
`remote-command-service-unavailable` (code 1009, surfaced, not retried) among
the consumed error codes. -/
def isRemoteControlServiceError (code : String) : Bool :=
  code = "1009"

/-! ## Pending remote-control correlation table (`main.js`)

`this.pendingRemoteControls` is a JavaScript `Map` keyed by `requestSerial`;
iteration order is insertion order and `Map.set` of a fresh key appends, so the
table is an association list to which `waitForMqttResult` appends. -/

/-- One entry of `pendingRemoteControls` (`main.js` lines 1580-1588); the
`resolve` closure is modelled by the events the transition functions emit. -/
structure RCPending where
  vin : String
  commandType : String
  timestamp : Nat
  deriving DecidableEq, Repr

/-- The decoded `respondData` of an MQTT `remoteControl` push message,
restricted to the fields `handleMqttRemoteControl` reads.  `controlState` uses
strict equality (`===`) against the numbers 1 and 2, so it is kept as the raw
`JSVal`. -/
structure RCMessage where
  res : JSVal := .undef
  dataLatitude : JSVal := .undef
  controlState : JSVal := .undef
  requestSerial : Option String := none
  commandType : Option String := none
  deriving DecidableEq, Repr

/-- The resolution passed to a waiter's `resolve` (`main.js` lines 1513-1519). -/
structure RCResolution where
  serial : String
  success : Bool
  controlState : JSVal
  deriving DecidableEq, Repr

/-- `handleMqttRemoteControl(vin, payload)` from `main.js` lines 1474-1537,
restricted to its effect on `pendingRemoteControls`: returns the new table and
the resolution handed to a pending waiter, if any.  An empty-string
`requestSerial` is falsy in JS, hence the `s ≠ ""` guards. -/
def handleMqttRemoteControl (table : List (String × RCPending)) (vin : String)
    (rd : RCMessage) : List (String × RCPending) × Option RCResolution :=
  if rd.res ≠ .undef ∧ rd.dataLatitude ≠ .undef then
    -- GPS trigger response branch: parses coordinates and returns early.
    (table, none)
  else
    let success := rd.controlState = .num 1
    let failed := rd.controlState = .num 2
    match rd.requestSerial with
    | some s =>
      if s ≠ "" ∧ (table.lookup s).isSome then
        let table' := table.filter (fun e => e.1 ≠ s)
        if success || failed then
          (table', some ⟨s, success, rd.controlState⟩)
        else
          (table', none)
      else (table, none)
    | none =>
      if success || failed then
        match table.find? (fun e => e.2.vin = vin) with
        | some e =>
          (table.filter (fun x => x.1 ≠ e.1), some ⟨e.1, success, rd.controlState⟩)
        | none => (table, none)
      else (table, none)

/-- Registration step of `waitForMqttResult` (`main.js` lines 1580-1588):
`Map.set` with a fresh serial appends an entry. -/
def registerPending (table : List (String × RCPending)) (serial : String)
    (p : RCPending) : List (String × RCPending) :=
  if (table.lookup serial).isSome then
    table.map (fun e => if e.1 = serial then (serial, p) else e)
  else table ++ [(serial, p)]

/-- The synthesized timeout of `waitForMqttResult` (`main.js` lines 1572-1578):
it resolves `null` (modelled as `true` in the second component) only when the
entry is still registered, and deletes it. -/
def mqttTimeoutFire (table : List (String × RCPending)) (serial : String) :
    List (String × RCPending) × Bool :=
  if (table.lookup serial).isSome then
    (table.filter (fun e => e.1 ≠ serial), true)
  else (table, false)

/-! ## `sendRemoteControl` trigger phase (`main.js` lines 1780-1885)

The HTTP trigger is modelled by an oracle `server : Nat → TrigResp` giving the
decoded response of the n-th trigger call, and `loginOk : Nat → Bool` giving
whether the n-th re-login leaves a session.  The function mirrors the
error-code policy of the trigger phase and counts trigger calls, login calls
and rate-limit sleeps. -/

/-- Decoded outcome of one HTTP trigger call: a transport error (caught by the
surrounding `try`), or a decoded envelope with `code` and the `requestSerial`
extracted from `respondData` when `code === '0'`. -/
inductive TrigResp where
  | httpError (msg : String)
  | decoded (code : String) (serial : Option String)
  deriving DecidableEq, Repr

/-- Result of the trigger phase: either a structured failure
`{success:false, error}` or progression to the MQTT-wait phase with a serial. -/
inductive TrigResult where
  | failure (error : String)
  | proceed (serial : String)
  deriving DecidableEq, Repr

/-- Counters observed during the trigger phase. -/
structure TrigStats where
  result : TrigResult
  triggers : Nat
  logins : Nat
  sleeps : Nat
  deriving DecidableEq, Repr

/-- `MAX_RATE_LIMIT_RETRIES` (`main.js` line 1785). -/
def MAX_RATE_LIMIT_RETRIES : Nat := 3

/-- `RATE_LIMIT_DELAY_MS` (`main.js` line 1786). -/
def RATE_LIMIT_DELAY_MS : Nat := 5000

/-- The trigger phase of `sendRemoteControl` (`main.js` lines 1780-1885).
`ci` and `li` index the oracles for the next trigger call and the next login;
`retryCount` is the eponymous parameter.  Recursion mirrors
`return this.sendRemoteControl(..., retryCount + 1)` and happens only under
`retryCount < MAX_RATE_LIMIT_RETRIES` (rate limit) or `retryCount < 1`
(session expiry), so `MAX_RATE_LIMIT_RETRIES - retryCount` decreases. -/
def sendRemoteControlTrig (server : Nat → TrigResp) (loginOk : Nat → Bool)
    (ci li retryCount : Nat) : TrigStats :=
  match server ci with
  | .httpError msg => ⟨.failure msg, 1, 0, 0⟩
  | .decoded code serial =>
    if code ≠ "0" then
      if isControlPasswordError code then
        ⟨.failure "control password error", 1, 0, 0⟩
      else if isRateLimited code then
        if retryCount < MAX_RATE_LIMIT_RETRIES then
          let rec_ := sendRemoteControlTrig server loginOk (ci + 1) li (retryCount + 1)
          ⟨rec_.result, rec_.triggers + 1, rec_.logins, rec_.sleeps + 1⟩
        else
          ⟨.failure "Rate limit exceeded", 1, 0, 0⟩
      else if isSessionExpired code then
        -- `this.session = null; await this.login();`
        if loginOk li ∧ retryCount < 1 then
          let rec_ := sendRemoteControlTrig server loginOk (ci + 1) (li + 1) (retryCount + 1)
          ⟨rec_.result, rec_.triggers + 1, rec_.logins + 1, rec_.sleeps⟩
        else
          ⟨.failure "Session expired", 1, 1, 0⟩
      else if isRemoteControlServiceError code then
        ⟨.failure "Vehicle unreachable (1009)", 1, 0, 0⟩
      else
        ⟨.failure ("API error: " ++ code), 1, 0, 0⟩
    else
      match serial with
      | some s => if s ≠ "" then ⟨.proceed s, 1, 0, 0⟩ else ⟨.failure "No requestSerial", 1, 0, 0⟩
      | none => ⟨.failure "No requestSerial", 1, 0, 0⟩
  termination_by MAX_RATE_LIMIT_RETRIES - retryCount
  decreasing_by
    all_goals simp [MAX_RATE_LIMIT_RETRIES] at *
    all_goals omega

/-! ## Unsupported-endpoint memoization (`main.js` lines 1178-1252)

`this.unsupportedEndpoints` is `{ vin: Set(names) }` and `this.realtimeCache`
is `{ vin: {...} }`; both are only ever written by `fetchStatusEndpoint`
(unsupported sets) and the realtime poll / MQTT ingestion (cache).  Objects are
association lists. -/

/-- JavaScript truthiness of a field value (`cached && cached[field]`). -/
def jsTruthy : JSVal → Bool
  | .undef => false
  | .num n => n ≠ 0
  | .str s => s ≠ ""

/-- Orchestrator state touched by `fetchStatusEndpoint`. -/
structure OrchState where
  unsupportedEndpoints : List (String × List String)
  realtimeCache : List (String × List (String × JSVal))
  deriving DecidableEq, Repr

/-- A status-endpoint configuration (`main.js` lines 1255-1278): only `name`
and `fallbackField` influence the control flow modelled here. -/
structure StatusEndpoint where
  name : String
  fallbackField : Option String
  deriving DecidableEq, Repr

/-- Decoded HTTP response of a status-endpoint call: a transport error, or a
decoded envelope with `code` and optional decrypted `respondData`. -/
inductive FetchResp where
  | httpError (msg : String)
  | decoded (code : String) (respondData : Option (List (String × JSVal)))
  deriving DecidableEq, Repr

/-- What a `fetchStatusEndpoint` call parsed into the state tree: the full
endpoint payload, or a degraded `{ [fallbackField]: cached, _fallback: true }`
object. -/
inductive FetchParse where
  | full (data : List (String × JSVal))
  | fallback (field : String) (value : JSVal)
  deriving DecidableEq, Repr

/-- Observable outcome of one `fetchStatusEndpoint` call. -/
structure FetchOutcome where
  networkCalled : Bool
  parsed : Option FetchParse
  deriving DecidableEq, Repr

/-- Look up the cached realtime value of `field` for `vin` and check the JS
condition `cached && cached[endpoint.fallbackField]`. -/
def cachedFallback (st : OrchState) (vin field : String) : Option JSVal :=
  match st.realtimeCache.lookup vin with
  | none => none
  | some cached =>
    match cached.lookup field with
    | some v => if jsTruthy v then some v else none
    | none => none

/-- The degraded-result branch shared by the memoized skip and the 1001
response (`main.js` lines 1186-1194 and 1238-1246). -/
def fallbackParse (st : OrchState) (vin : String) (ep : StatusEndpoint) :
    Option FetchParse :=
  match ep.fallbackField with
  | none => none
  | some field =>
    match cachedFallback st vin field with
    | some v => some (.fallback field v)
    | none => none

/-- Record an endpoint name in `unsupportedEndpoints[vin]` (`main.js` lines
1232-1235): `Set.add` on the existing per-VIN set, creating the set first when
absent. -/
def recordUnsupported (sets : List (String × List String)) (vin name : String) :
    List (String × List String) :=
  let newSet := (sets.lookup vin).getD [] ++ [name]
  if (sets.lookup vin).isSome then
    sets.map (fun e => if e.1 = vin then (vin, newSet) else e)
  else sets ++ [(vin, newSet)]

/-- `fetchStatusEndpoint(vin, endpoint)` from `main.js` lines 1178-1252,
restricted to its effect on `unsupportedEndpoints` and its observable network /
parse behaviour.  `hasSession` models `this.session` being non-null; `resp` is
the decoded server response consumed when a network call is made. -/
def fetchStatusEndpoint (hasSession : Bool) (st : OrchState) (vin : String)
    (ep : StatusEndpoint) (resp : FetchResp) : OrchState × FetchOutcome :=
  if !hasSession then (st, ⟨false, none⟩)
  else if ep.name ∈ ((st.unsupportedEndpoints.lookup vin).getD []) then
    (st, ⟨false, fallbackParse st vin ep⟩)
  else
    match resp with
    | .httpError _ => (st, ⟨true, none⟩)
    | .decoded code respondData =>
      if code = "0" ∧ respondData.isSome then
        (st, ⟨true, respondData.map .full⟩)
      else if isSessionExpired code then
        -- `handleSessionExpired` re-logs in; it does not touch the sets.
        (st, ⟨true, none⟩)
      else if isEndpointNotSupported code then
        (⟨recordUnsupported st.unsupportedEndpoints vin ep.name, st.realtimeCache⟩,
          ⟨true, fallbackParse st vin ep⟩)
      else (st, ⟨true, none⟩)

/-! ## MD5 (model of Node `crypto.createHash('md5')`) and `computeCheckcode`

`computeCheckcode(payload)` (`lib/bydapi.js` lines 81-85) serializes the
payload with `JSON.stringify` — which emits object keys in insertion order,
without sorting — hashes the UTF-8 bytes with MD5 and reorders the lowercase
hex digest.  MD5 is external library code and is modelled here from its
standard definition (RFC 1321). -/

/-- 2^32. -/
def pow32 : Nat := 4294967296

/-- Addition modulo 2^32. -/
def add32 (a b : Nat) : Nat := (a + b) % pow32

/-- 32-bit left rotation. -/
def rotl32 (x n : Nat) : Nat :=
  ((x <<< n) % pow32) ||| (x >>> (32 - n))

/-- 32-bit bitwise complement. -/
def not32 (x : Nat) : Nat := x ^^^ 4294967295

/-- The MD5 sine-derived constants `K[0..63]`. -/
def md5K : List Nat :=
  [0xd76aa478, 0xe8c7b756, 0x242070db, 0xc1bdceee,
   0xf57c0faf, 0x4787c62a, 0xa8304613, 0xfd469501,
   0x698098d8, 0x8b44f7af, 0xffff5bb1, 0x895cd7be,
   0x6b901122, 0xfd987193, 0xa679438e, 0x49b40821,
   0xf61e2562, 0xc040b340, 0x265e5a51, 0xe9b6c7aa,
   0xd62f105d, 0x02441453, 0xd8a1e681, 0xe7d3fbc8,
   0x21e1cde6, 0xc33707d6, 0xf4d50d87, 0x455a14ed,
   0xa9e3e905, 0xfcefa3f8, 0x676f02d9, 0x8d2a4c8a,
   0xfffa3942, 0x8771f681, 0x6d9d6122, 0xfde5380c,
   0xa4beea44, 0x4bdecfa9, 0xf6bb4b60, 0xbebfbc70,
   0x289b7ec6, 0xeaa127fa, 0xd4ef3085, 0x04881d05,
   0xd9d4d039, 0xe6db99e5, 0x1fa27cf8, 0xc4ac5665,
   0xf4292244, 0x432aff97, 0xab9423a7, 0xfc93a039,
   0x655b59c3, 0x8f0ccc92, 0xffeff47d, 0x85845dd1,
   0x6fa87e4f, 0xfe2ce6e0, 0xa3014314, 0x4e0811a1,
   0xf7537e82, 0xbd3af235, 0x2ad7d2bb, 0xeb86d391]

/-- The MD5 per-round rotation amounts `s[0..63]`. -/
def md5S : List Nat :=
  [7, 12, 17, 22, 7, 12, 17, 22, 7, 12, 17, 22, 7, 12, 17, 22,
   5, 9, 14, 20, 5, 9, 14, 20, 5, 9, 14, 20, 5, 9, 14, 20,
   4, 11, 16, 23, 4, 11, 16, 23, 4, 11, 16, 23, 4, 11, 16, 23,
   6, 10, 15, 21, 6, 10, 15, 21, 6, 10, 15, 21, 6, 10, 15, 21]

/-- The 16 little-endian 32-bit words of a 64-byte chunk. -/
def md5Words (chunk : List Nat) (g : Nat) : Nat :=
  chunk.getD (4 * g) 0 + chunk.getD (4 * g + 1) 0 * 256 +
    chunk.getD (4 * g + 2) 0 * 65536 + chunk.getD (4 * g + 3) 0 * 16777216

/-- One MD5 step `i` on state `(A, B, C, D)` for chunk `m`. -/
def md5Step (m : Nat → Nat) (st : Nat × Nat × Nat × Nat) (i : Nat) :
    Nat × Nat × Nat × Nat :=
  let (a, b, c, d) := st
  let (f, g) :=
    if i < 16 then ((b &&& c) ||| (not32 b &&& d), i)
    else if i < 32 then ((d &&& b) ||| (not32 d &&& c), (5 * i + 1) % 16)
    else if i < 48 then (b ^^^ c ^^^ d, (3 * i + 5) % 16)
    else (c ^^^ (b ||| not32 d), (7 * i) % 16)
  let f' := add32 (add32 (add32 f a) (md5K.getD i 0)) (m g)
  (d, add32 b (rotl32 f' (md5S.getD i 0)), b, c)

/-- Process one 64-byte chunk. -/
def md5Chunk (st : Nat × Nat × Nat × Nat) (chunk : List Nat) :
    Nat × Nat × Nat × Nat :=
  let (a0, b0, c0, d0) := st
  let (a, b, c, d) := (List.range 64).foldl (md5Step (md5Words chunk)) st
  (add32 a0 a, add32 b0 b, add32 c0 c, add32 d0 d)

/-- Split a byte list into 64-byte chunks; `fuel` bounds the recursion (each
step consumes at least one element, so `l.length` is enough fuel). -/
def chunks64Go : Nat → List Nat → List (List Nat)
  | _, [] => []
  | 0, _ :: _ => []
  | fuel + 1, l => l.take 64 :: chunks64Go fuel (l.drop 64)

/-- Split a byte list into 64-byte chunks. -/
def chunks64 (l : List Nat) : List (List Nat) := chunks64Go l.length l

/-- MD5 padding: a `0x80` byte, zeros to 56 mod 64, then the bit length as
eight little-endian bytes. -/
def md5Pad (msg : List Nat) : List Nat :=
  let padLen := (119 - msg.length % 64) % 64 + 1
  let bitLen := msg.length * 8
  msg ++ (128 :: List.replicate (padLen - 1) 0) ++
    (List.range 8).map (fun k => bitLen / 256 ^ k % 256)

/-- The 16 MD5 digest bytes of a byte message. -/
def md5Bytes (msg : List Nat) : List Nat :=
  let (a, b, c, d) :=
    (chunks64 (md5Pad msg)).foldl md5Chunk
      (0x67452301, 0xefcdab89, 0x98badcfe, 0x10325476)
  [a, b, c, d].flatMap (fun w => (List.range 4).map (fun k => w / 256 ^ k % 256))

/-- Lowercase hex digit. -/
def hexDigit (n : Nat) : Char :=
  (['0', '1', '2', '3', '4', '5', '6', '7', '8', '9'] ++
    ['a', 'b', 'c', 'd', 'e', 'f']).getD n '0'

/-- Lowercase hex string of a byte list (Node `digest('hex')`). -/
def bytesToHexLower (l : List Nat) : List Char :=
  l.flatMap (fun b => [hexDigit (b / 16), hexDigit (b % 16)])

/-- UTF-8 encoding of a character (model of Node `update(json, 'utf8')`). -/
def utf8Char (c : Char) : List Nat :=
  let n := c.toNat
  if n < 128 then [n]
  else if n < 2048 then [192 + n / 64, 128 + n % 64]
  else if n < 65536 then [224 + n / 4096, 128 + n / 64 % 64, 128 + n % 64]
  else [240 + n / 262144, 128 + n / 4096 % 64, 128 + n / 64 % 64, 128 + n % 64]

/-- UTF-8 encoding of a string. -/
def utf8Encode (s : List Char) : List Nat := s.flatMap utf8Char

/-- `JSON.stringify` of a flat object with string values, in insertion order
(JavaScript objects with string keys preserve insertion order and
`JSON.stringify` does not sort).  The model assumes keys and values contain no
characters that JSON escapes. -/
def jsonStringifyStrObj (pairs : List (String × String)) : List Char :=
  let fields := pairs.map (fun p =>
    '\"' :: p.1.toList ++ '\"' :: ':' :: '\"' :: p.2.toList ++ ['\"'])
  '\x7b' :: (fields.intersperse [',']).flatten ++ ['\x7d']

/-- `computeCheckcode(payload)` from `lib/bydapi.js` lines 81-85 for a flat
string-valued payload: MD5 of the serialized JSON, digest hex reordered as
bytes 12-15, 4-7, 8-11, 0-3. -/
def computeCheckcode (payload : List (String × String)) : List Char :=
  let md5 := bytesToHexLower (md5Bytes (utf8Encode (jsonStringifyStrObj payload)))
  ((md5.drop 24).take 8) ++ ((md5.drop 8).take 8) ++
    ((md5.drop 16).take 8) ++ (md5.take 8)

/-! ## The bangcle table-driven block cipher (`lib/bangcle.js` lines 29-311)

Modelled from the spec: the table contents come from
`lib/bangcle_auth_tables.js`, which is not among the sources; the spec
describes them as "opaque binary blobs" of validated fixed sizes that "must be
supplied ... rather than derived".  The cipher is therefore parameterized over
the tables.  `invRound`/`round` are word-indexed (the source reads
`readUInt32LE(idx * 4)`); the remaining tables are byte-indexed.  Stores into
the `Uint8Array` state truncate modulo 256, as in JavaScript. -/

structure BangcleTables where
  invRound : Nat → Nat
  invXor : Nat → Nat
  invFirst : Nat → Nat
  round : Nat → Nat
  xor : Nat → Nat
  final : Nat → Nat
  permDecrypt : Nat → Nat
  permEncrypt : Nat → Nat

/-- `prepareAESMatrix(input, output)`: `output[col*8+row] = input[col+row*4]`
for `col, row < 4`; other state cells are the zeroes of a fresh array.  The
32-byte `Uint8Array` state is a 32-element list; stores truncate modulo 256. -/
def prepareAESMatrix (input : List Nat) : List Nat :=
  (List.range 32).map
    (fun p => if p / 8 < 4 ∧ p % 8 < 4 then input.getD (p / 8 + p % 8 * 4) 0 % 256 else 0)

/-- The nibble-interleaved XOR chain of one round, for output cell `(c, q)`:
`q0` is the first table row index (`lVar2 + iVar25 - 1` at the first step) and
`b0..b3` are the four `temp64` bytes combined.  Mirrors the `lVar16`/`lVar17`
loop of `lib/bangcle.js` (lines 89-102 and 198-211). -/
def mixChain (tab : Nat → Nat) (q0 b0 b1 b2 b3 : Nat) : Nat :=
  let lo0 := b0 % 16
  let hi0 := b0 / 16 % 16 * 16
  let lo1 := tab (q0 * 256 + (lo0 ||| (b1 % 16 * 16))) % 16
  let hi1 := tab ((q0 + 1) * 256 + (hi0 / 16 ||| (b1 / 16 * 16))) % 16 * 16
  let lo2 := tab ((q0 + 2) * 256 + (lo1 ||| (b2 % 16 * 16))) % 16
  let hi2 := tab ((q0 + 3) * 256 + (hi1 / 16 ||| (b2 / 16 * 16))) % 16 * 16
  let lo3 := tab ((q0 + 4) * 256 + (lo2 ||| (b3 % 16 * 16))) % 16
  let hi3 := tab ((q0 + 5) * 256 + (hi2 / 16 ||| (b3 / 16 * 16))) % 16 * 16
  (hi3 ||| lo3) % 256

/-- The `temp64` word for matrix row `i`, step `j`, in round `r`:
`roundTab.readUInt32LE((byteVal + (i + (r*4 + u)*4)*256) * 4)` with
`u = (perm[2*i] + j) & 3`. -/
def roundTempWord (roundTab perm : Nat → Nat) (r : Nat) (s : List Nat)
    (i j : Nat) : Nat :=
  let u := (perm (2 * i) + j) % 4
  roundTab (s.getD (i * 8 + u) 0 + (i + (r * 4 + u) * 4) * 256)

/-- Byte `o` of the `temp64` buffer filled by the first half of a round. -/
def roundTempByte (roundTab perm : Nat → Nat) (r : Nat) (s : List Nat)
    (o : Nat) : Nat :=
  roundTempWord roundTab perm r s (o / 16) (o % 16 / 4) >>> (8 * (o % 4)) % 256

/-- One full cipher round (decrypt rounds use the inverse tables, encrypt
rounds the forward ones; the dataflow is identical).  Writes state cell
`q + c*8` from the XOR chain over `temp64` bytes `c + 4*q + 16*g`. -/
def cipherRound (roundTab xorTab perm : Nat → Nat) (r : Nat) (s : List Nat) :
    List Nat :=
  let tb := (List.range 64).map (roundTempByte roundTab perm r s)
  (List.range 32).map (fun p =>
    let c := p / 8
    let q := p % 8
    if c < 4 ∧ q < 4 then
      mixChain xorTab (q * 24 + r * 96 + 6 * c)
        (tb.getD (c + 4 * q) 0) (tb.getD (c + 4 * q + 16) 0)
        (tb.getD (c + 4 * q + 32) 0) (tb.getD (c + 4 * q + 48) 0)
    else s.getD p 0)

/-- The terminal substitution pass of `encryptBlockAuth` (`param3 == 10`):
cell `(g, row)` is `final[tmp32[8g + (row+g)%4] + ((row+g)%4)*0x400 + g*0x100]`. -/
def encFinalPass (T : BangcleTables) (s : List Nat) : List Nat :=
  (List.range 32).map (fun p =>
    let g := p / 8
    let row := p % 8
    if g < 4 ∧ row < 4 then
      T.final (s.getD (8 * g + (row + g) % 4) 0 + (row + g) % 4 * 1024 + g * 256) % 256
    else s.getD p 0)

/-- The terminal substitution pass of `decryptBlockAuth` (`param3 == 1`): the
source row of group `g` is `(row + 4 - g) % 4`, the inverse rotation. -/
def decFinalPass (T : BangcleTables) (s : List Nat) : List Nat :=
  (List.range 32).map (fun p =>
    let g := p / 8
    let row := p % 8
    if g < 4 ∧ row < 4 then
      T.invFirst (s.getD (8 * g + (row + 4 - g) % 4) 0 + (row + 4 - g) % 4 * 1024 + g * 256) % 256
    else s.getD p 0)

/-- The decrypt round indices `9, 8, ..., max(1, param3)`. -/
def decRoundsList (param3 : Nat) : List Nat :=
  (List.range' (max 1 param3) (10 - max 1 param3)).reverse

/-- `decryptBlockAuth(block, round)` from `lib/bangcle.js` lines 37-145, on a
16-byte block (`output[col + row*4] = state[col*8 + row]`). -/
def decryptBlockAuth (T : BangcleTables) (param3 : Nat) (block : List Nat) :
    List Nat :=
  let s0 := prepareAESMatrix block
  let s1 := (decRoundsList param3).foldl
    (fun s r => cipherRound T.invRound T.invXor T.permDecrypt r s) s0
  let s2 := if param3 = 1 then decFinalPass T s1 else s1
  (List.range 16).map (fun m => s2.getD (m % 4 * 8 + m / 4) 0)

/-- `encryptBlockAuth(block, round)` from `lib/bangcle.js` lines 147-253:
rounds `0 .. min(9, param3) - 1`, then the terminal pass when `param3 == 10`. -/
def encryptBlockAuth (T : BangcleTables) (param3 : Nat) (block : List Nat) :
    List Nat :=
  let s0 := prepareAESMatrix block
  let s1 := (List.range (min 9 param3)).foldl
    (fun s r => cipherRound T.round T.xor T.permEncrypt r s) s0
  let s2 := if param3 = 10 then encFinalPass T s1 else s1
  (List.range 16).map (fun m => s2.getD (m % 4 * 8 + m / 4) 0)

/-- `xorInto(target, source)`: byte-wise XOR of equal-length buffers. -/
def listXor (a b : List Nat) : List Nat :=
  List.zipWith (fun x y => x ^^^ y) a b

/-- The block loop of `encryptCbc`; `n` is the number of 16-byte blocks. -/
def encryptCbcGo (T : BangcleTables) : Nat → List Nat → List Nat → List Nat
  | 0, _, _ => []
  | n + 1, data, prev =>
    let blk := listXor (data.take 16) prev
    let enc := encryptBlockAuth T 10 blk
    enc ++ encryptCbcGo T n (data.drop 16) enc

/-- `encryptCbc(data, iv)` from `lib/bangcle.js` lines 288-311. -/
def encryptCbc (T : BangcleTables) (data iv : List Nat) :
    Except String (List Nat) :=
  if data.length % 16 ≠ 0 then
    .error "Bangcle plaintext length must be multiple of 16"
  else if iv.length ≠ 16 then .error "Bangcle CBC IV must be 16 bytes"
  else .ok (encryptCbcGo T (data.length / 16) data iv)

/-- The block loop of `decryptCbc`: `prev` is the previous ciphertext block. -/
def decryptCbcGo (T : BangcleTables) : Nat → List Nat → List Nat → List Nat
  | 0, _, _ => []
  | n + 1, data, prev =>
    let blk := data.take 16
    let dec := listXor (decryptBlockAuth T 1 blk) prev
    dec ++ decryptCbcGo T n (data.drop 16) blk

/-- `decryptCbc(data, iv)` from `lib/bangcle.js` lines 261-286. -/
def decryptCbc (T : BangcleTables) (data iv : List Nat) :
    Except String (List Nat) :=
  if data.length % 16 ≠ 0 then
    .error "Bangcle ciphertext length must be multiple of 16"
  else if iv.length ≠ 16 then .error "Bangcle CBC IV must be 16 bytes"
  else .ok (decryptCbcGo T (data.length / 16) data iv)

/-- The exact block inputs `encryptBlockAuth` receives while CBC-encrypting
`data` (each is a plaintext block XORed with the previous ciphertext block). -/
def encBlockInputs (T : BangcleTables) : Nat → List Nat → List Nat →
    List (List Nat)
  | 0, _, _ => []
  | n + 1, data, prev =>
    let blk := listXor (data.take 16) prev
    blk :: encBlockInputs T n (data.drop 16) (encryptBlockAuth T 10 blk)

/-! ## Base64 (model of Node `Buffer.toString('base64')` / `Buffer.from(_, 'base64')`) -/

/-- The standard base64 alphabet. -/
def b64Alphabet : List Char :=
  ['A', 'B', 'C', 'D', 'E', 'F', 'G', 'H', 'I', 'J', 'K', 'L', 'M',
   'N', 'O', 'P', 'Q', 'R', 'S', 'T', 'U', 'V', 'W', 'X', 'Y', 'Z',
   'a', 'b', 'c', 'd', 'e', 'f', 'g', 'h', 'i', 'j', 'k', 'l', 'm',
   'n', 'o', 'p', 'q', 'r', 's', 't', 'u', 'v', 'w', 'x', 'y', 'z',
   '0', '1', '2', '3', '4', '5', '6', '7', '8', '9', '+', '/']

/-- The base64 character of a sextet. -/
def b64Char (n : Nat) : Char := b64Alphabet.getD n 'A'

/-- The sextet of a base64 character (the length of the alphabet for foreign
characters; never reached on well-formed input). -/
def b64Val (c : Char) : Nat := b64Alphabet.indexOf c

/-- RFC 4648 base64 encoding with `=` padding. -/
def b64EncodeBytes : List Nat → List Char
  | [] => []
  | [a] => [b64Char (a / 4), b64Char (a % 4 * 16), '=', '=']
  | [a, b] => [b64Char (a / 4), b64Char (a % 4 * 16 + b / 16),
               b64Char (b % 16 * 4), '=']
  | a :: b :: c :: rest =>
    b64Char (a / 4) :: b64Char (a % 4 * 16 + b / 16) ::
      b64Char (b % 16 * 4 + c / 64) :: b64Char (c % 64) :: b64EncodeBytes rest

/-- Base64 decoding of well-formed padded input (quads, `=` only terminal). -/
def b64DecodeChars : List Char → List Nat
  | x :: y :: z :: w :: rest =>
    if z = '=' then [b64Val x * 4 + b64Val y / 16]
    else if w = '=' then
      [b64Val x * 4 + b64Val y / 16, b64Val y % 16 * 16 + b64Val z / 4]
    else
      (b64Val x * 4 + b64Val y / 16) :: (b64Val y % 16 * 16 + b64Val z / 4) ::
        (b64Val z % 4 * 64 + b64Val w) :: b64DecodeChars rest
  | _ => []

/-! ## Envelope framing (`lib/bangcle.js` lines 335-374) -/

/-- JavaScript `\s` for the characters that can occur here. -/
def jsIsSpace (c : Char) : Bool :=
  c = ' ' || c = '\t' || c = '\n' || c = '\r' || c = '\u000B' || c = '\u000C'

/-- `normaliseCheckcodeInput(input)` from `lib/bangcle.js` lines 335-351:
strips whitespace, converts URL-safe base64 characters, throws on empty input,
strips one leading `F`/`S` tag, and restores `=` padding. -/
def normaliseCheckcodeInput (input : List Char) : Except String (List Char) :=
  let cleaned := input.filter (fun c => !jsIsSpace c)
  let cleaned := cleaned.map (fun c =>
    if c = '-' then '+' else if c = '_' then '/' else c)
  if cleaned.length = 0 then .error "Bangcle input is empty"
  else
    let cleaned :=
      if (cleaned.head? = some 'F' ∨ cleaned.head? = some 'S') ∧ 1 < cleaned.length
      then cleaned.drop 1 else cleaned
    let remainder := cleaned.length % 4
    .ok (if remainder = 0 then cleaned
         else cleaned ++ List.replicate (4 - remainder) '=')

/-- `decodeEnvelope(base64)` from `lib/bangcle.js` lines 353-366. -/
def decodeEnvelope (T : BangcleTables) (text : List Char) :
    Except String (List Nat) := do
  let payload ← normaliseCheckcodeInput text
  let ciphertext := b64DecodeChars payload
  if ciphertext.length = 0 then .error "Bangcle ciphertext is empty"
  else if ciphertext.length % 16 ≠ 0 then
    .error "Bangcle ciphertext length is incompatible with 16-byte blocks"
  else do
    let plaintext ← decryptCbc T ciphertext (List.replicate 16 0)
    pure (stripPkcs7 plaintext)

/-- `encodeEnvelope(plaintext)` from `lib/bangcle.js` lines 368-374 for a byte
buffer input. -/
def encodeEnvelope (T : BangcleTables) (plaintext : List Nat) :
    Except String (List Char) := do
  let padded := addPkcs7 plaintext
  let ciphertext ← encryptCbc T padded (List.replicate 16 0)
  pure ('F' :: b64EncodeBytes ciphertext)

/-! ## Concrete witness tables

A concrete `BangcleTables` instance used to exhibit satisfiable hypotheses:
the word tables place the looked-up byte into lane `i`, the XOR tables XOR the
two nibbles of the indexed byte, and the terminal substitution tables are the
identity on the byte part of the index, so each block primitive is a
permutation of the block and decryption inverts encryption. -/
def wTables : BangcleTables where
  invRound := fun idx => (idx % 256) <<< (8 * (idx / 256 % 4))
  invXor := fun idx => (idx % 256 % 16) ^^^ (idx % 256 / 16)
  invFirst := fun idx => idx % 256
  round := fun idx => (idx % 256) <<< (8 * (idx / 256 % 4))
  xor := fun idx => (idx % 256 % 16) ^^^ (idx % 256 / 16)
  final := fun idx => idx % 256
  permDecrypt := fun _ => 0
  permEncrypt := fun _ => 0

/-- Decidable equality for `Except`, so witnesses can evaluate the fallible
codec functions. -/
instance {ε α : Type} [DecidableEq ε] [DecidableEq α] : DecidableEq (Except ε α) := fun
  | .error e, .error f =>
    if h : e = f then .isTrue (by rw [h]) else .isFalse (by simp [h])
  | .error _, .ok _ => .isFalse (by simp)
  | .ok _, .error _ => .isFalse (by simp)
  | .ok a, .ok b =>
    if h : a = b then .isTrue (by rw [h]) else .isFalse (by simp [h])

/-! # Theorems -/

/-- `all` over a list, read through `getD`. -/
theorem all_iff_getD (l : List Nat) (p : Nat → Bool) :
    (l.all p = true) ↔ ∀ i, i < l.length → p (l.getD i 0) := by
  induction l with
  | nil => simp
  | cons a t ih =>
    simp only [List.all_cons, Bool.and_eq_true, ih, List.length_cons]
    constructor
    · rintro ⟨ha, ht⟩ i hi
      cases i with
      | zero => simpa using ha
      | succ j => simpa using ht j (by omega)
    · intro h
      refine ⟨by simpa using h 0 (by omega), fun j hj => by simpa using h (j + 1) (by omega)⟩

/-- `getD` through `drop`. -/
theorem getD_drop (l : List Nat) (k i : Nat) :
    (l.drop k).getD i 0 = l.getD (k + i) 0 := by
  induction l generalizing k with
  | nil => simp
  | cons a t ih =>
    cases k with
    | zero => simp
    | succ k' =>
      show (t.drop k').getD i 0 = (a :: t).getD (k' + 1 + i) 0
      rw [ih k']
      have hidx : k' + 1 + i = (k' + i) + 1 := by omega
      rw [hidx, List.getD_cons_succ]

/-- The last `pad` positions of `l`, as read by the `stripPkcs7` loop. -/
theorem stripPkcs7_all_iff (l : List Nat) (pad : Nat) :
    ((l.drop (l.length - pad)).all (fun b => b = pad) = true) ↔
      ∀ i, l.length - pad ≤ i → i < l.length → l.getD i 0 = pad := by
  rw [all_iff_getD]
  constructor
  · intro h i hle hlt
    have := h (i - (l.length - pad)) (by simp [List.length_drop]; omega)
    rw [getD_drop] at this
    have hidx : l.length - pad + (i - (l.length - pad)) = i := by omega
    rw [hidx] at this
    exact of_decide_eq_true this
  · intro h i hi
    rw [getD_drop]
    have hlen : l.length - pad + i < l.length := by
      simp [List.length_drop] at hi; omega
    exact decide_eq_true (h _ (by omega) hlen)

/-- `stripPkcs7` unfolded at a known last byte. -/
theorem stripPkcs7_eq_of_last (l : List Nat) (pad : Nat)
    (hlast : l.getLast? = some pad) :
    stripPkcs7 l =
      if pad = 0 ∨ pad > 16 then l
      else if pad ≤ l.length ∧ (l.drop (l.length - pad)).all (fun b => b = pad) then
        l.take (l.length - pad)
      else l := by
  unfold stripPkcs7
  rw [hlast]

/-- C9: the PKCS#7 padding-removal step is total (it is a Lean function) and,
for every decrypted buffer: if the final byte is not a plausible pad length
(zero or above 16), or the pad would overrun the buffer, or one of the claimed
pad bytes differs, the buffer is returned unchanged; otherwise exactly the
`pad` final bytes are removed. -/
theorem stripPkcs7_spec (l : List Nat) (pad : Nat) (hlast : l.getLast? = some pad) :
    ((pad = 0 ∨ 16 < pad) → stripPkcs7 l = l) ∧
    (l.length < pad → stripPkcs7 l = l) ∧
    ((∃ i, l.length - pad ≤ i ∧ i < l.length ∧ l.getD i 0 ≠ pad) →
      stripPkcs7 l = l) ∧
    (0 < pad → pad ≤ 16 → pad ≤ l.length →
      (∀ i, l.length - pad ≤ i → i < l.length → l.getD i 0 = pad) →
      stripPkcs7 l = l.take (l.length - pad) ∧
        (stripPkcs7 l).length = l.length - pad) := by
  rw [stripPkcs7_eq_of_last l pad hlast]
  refine ⟨?_, ?_, ?_, ?_⟩
  · intro h
    rw [if_pos (by omega : pad = 0 ∨ pad > 16)]
  · intro h
    by_cases h0 : pad = 0 ∨ pad > 16
    · rw [if_pos h0]
    · rw [if_neg h0, if_neg (by rintro ⟨hle, -⟩; omega)]
  · rintro ⟨i, hle, hlt, hne⟩
    by_cases h0 : pad = 0 ∨ pad > 16
    · rw [if_pos h0]
    · have hnot : ¬(pad ≤ l.length ∧
          ((l.drop (l.length - pad)).all (fun b => b = pad) = true)) := by
        rintro ⟨-, hall⟩
        exact hne ((stripPkcs7_all_iff l pad).mp hall i hle hlt)
      rw [if_neg h0, if_neg hnot]
  · intro h1 h2 h3 h4
    rw [if_neg (by omega), if_pos ⟨h3, (stripPkcs7_all_iff l pad).mpr h4⟩]
    exact ⟨rfl, by simp [List.length_take]⟩

/-- Witness for `stripPkcs7_spec`: a buffer ending in two pad bytes `2`. -/
theorem stripPkcs7_spec_witness :
    ([65, 66, 2, 2] : List Nat).getLast? = some 2 ∧
      stripPkcs7 [65, 66, 2, 2] = [65, 66] :=
  ⟨by decide,
    ((stripPkcs7_spec [65, 66, 2, 2] 2 (by decide)).2.2.2 (by decide) (by decide)
      (by decide) (by decide)).1.trans (by decide)⟩

/-- C3 counterexample: the claim says any response object with `time > 0` is
classified ready, but a response whose `onlineState` converts to 2 is
classified not-ready even with `time = 1 > 0`. -/
theorem isRealtimeDataReady_time_counterexample :
    jsNumber (JSVal.num 1) = some 1 ∧ (0 : Int) < 1 ∧
      isRealtimeDataReady (some { onlineState := .str "2", time := .num 1 }) = false := by
  decide

/-- C3 (amended): a poll response whose four tire-pressure fields all convert
to numbers `≤ 0` and which has no `time` and no `enduranceMileage` field is
classified not-ready; a response with `time > 0` is classified ready provided
its `onlineState` does not convert to 2. -/
theorem isRealtimeDataReady_spec (v : VehicleInfo) :
    ((∃ n, jsNumber v.leftFrontTirepressure = some n ∧ n ≤ 0) →
     (∃ n, jsNumber v.rightFrontTirepressure = some n ∧ n ≤ 0) →
     (∃ n, jsNumber v.leftRearTirepressure = some n ∧ n ≤ 0) →
     (∃ n, jsNumber v.rightRearTirepressure = some n ∧ n ≤ 0) →
      v.time = .undef → v.enduranceMileage = .undef →
      isRealtimeDataReady (some v) = false) ∧
    (jsNumber v.onlineState ≠ some 2 → jsGtZero (jsNumber v.time) = true →
      isRealtimeDataReady (some v) = true) := by
  constructor
  · rintro ⟨n1, hn1, hle1⟩ ⟨n2, hn2, hle2⟩ ⟨n3, hn3, hle3⟩ ⟨n4, hn4, hle4⟩ htime hend
    have hz : ∀ n : Int, n ≤ 0 → jsGtZero (some n) = false := by
      intro n hn
      simp [jsGtZero]
      omega
    have hany : tireFields.any (fun f => jsGtZero (jsNumber (f v))) = false := by
      simp only [tireFields, List.any_cons, List.any_nil, Bool.or_eq_false_iff]
      rw [hn1, hn2, hn3, hn4, hz n1 hle1, hz n2 hle2, hz n3 hle3, hz n4 hle4]
      simp
    by_cases h2 : jsNumber v.onlineState = some 2
    · simp [isRealtimeDataReady, h2]
    · simp only [isRealtimeDataReady]
      rw [if_neg h2, hany, htime, hend]
      simp [jsNumber, jsGtZero]
  · intro h2 ht
    by_cases ha : tireFields.any (fun f => jsGtZero (jsNumber (f v))) = true
    · simp [isRealtimeDataReady, h2, ha]
    · simp [isRealtimeDataReady, h2, ha, ht]

/-- Witness for `isRealtimeDataReady_spec`: a response with all tire pressures
`≤ 0` and no `time`/`enduranceMileage` is not ready; a response with only
`time > 0` is ready. -/
theorem isRealtimeDataReady_spec_witness :
    isRealtimeDataReady
        (some { leftFrontTirepressure := .str "0",
                rightFrontTirepressure := .str "-1",
                leftRearTirepressure := .num 0,
                rightRearTirepressure := .num (-5) }) = false ∧
    isRealtimeDataReady (some { time := .num 1749732195000 }) = true :=
  ⟨(isRealtimeDataReady_spec _).1 ⟨0, by decide, by decide⟩
      ⟨-1, by decide, by decide⟩ ⟨0, by decide, by decide⟩
      ⟨-5, by decide, by decide⟩ rfl rfl,
   (isRealtimeDataReady_spec _).2 (by decide) (by decide)⟩

/-- C10: whenever `onlineState` converts to the number 2 the readiness
predicate returns `false`, regardless of every other field. -/
theorem isRealtimeDataReady_offline_gate (v : VehicleInfo)
    (h : jsNumber v.onlineState = some 2) :
    isRealtimeDataReady (some v) = false := by
  simp [isRealtimeDataReady, h]

/-- Witness for `isRealtimeDataReady_offline_gate`: offline (`onlineState`
`"2"`) wins over positive tire pressure, `time` and `enduranceMileage`. -/
theorem isRealtimeDataReady_offline_gate_witness :
    jsNumber (JSVal.str "2") = some 2 ∧
      isRealtimeDataReady
          (some { onlineState := .str "2",
                  leftFrontTirepressure := .num 253,
                  time := .num 1749732195000,
                  enduranceMileage := .num 320 }) = false :=
  ⟨by decide, isRealtimeDataReady_offline_gate _ (by decide)⟩

/-- C4: a push command-result with a matching `requestSerial` whose outcome is
pending (`controlState` 0) deletes the pending entry *without* resolving the
waiter, and the synthesized timeout subsequently finds no entry and resolves
nothing — the waiter can never complete.  The claim (entry stays registered on
a pending outcome) is violated by the code. -/
theorem pendingPush_removes_entry :
    handleMqttRemoteControl [("S1", ⟨"VIN1", "LOCKDOOR", 0⟩)] "VIN1"
        { controlState := .num 0, requestSerial := some "S1" } =
      ([], none) ∧
    mqttTimeoutFire [] "S1" = ([], false) := by
  decide

/-- C8 counterexample: with no embedded serial, the router resolves the oldest
pending entry for the message's VIN even when the command type differs
(`OPENAIR` push resolving a `LOCKDOOR` waiter), so the match is not by
`(vin, kind)`. -/
theorem mqttVinMatch_kind_counterexample :
    handleMqttRemoteControl [("S1", ⟨"V1", "LOCKDOOR", 7⟩)] "V1"
        { controlState := .num 1, commandType := some "OPENAIR" } =
      ([], some ⟨"S1", true, .num 1⟩) ∧
    ("OPENAIR" : String) ≠ "LOCKDOOR" := by
  decide

/-- C8 (amended): when a terminal push command-result embeds no
`requestSerial`, the router resolves the oldest pending entry whose VIN equals
the message VIN — the command kind and the payload content are not consulted —
removing exactly that entry; with no VIN match the table is unchanged and
nothing resolves. -/
theorem mqttVinMatch_spec (table : List (String × RCPending)) (vin : String)
    (rd : RCMessage) (hres : rd.res = .undef) (hser : rd.requestSerial = none)
    (hterm : rd.controlState = .num 1 ∨ rd.controlState = .num 2) :
    (∀ e, table.find? (fun e => e.2.vin = vin) = some e →
      handleMqttRemoteControl table vin rd =
        (table.filter (fun x => x.1 ≠ e.1),
         some ⟨e.1, rd.controlState = .num 1, rd.controlState⟩)) ∧
    (table.find? (fun e => e.2.vin = vin) = none →
      handleMqttRemoteControl table vin rd = (table, none)) := by
  constructor
  · intro e he
    rcases hterm with h1 | h1 <;>
      simp [handleMqttRemoteControl, hres, hser, h1, he]
  · intro he
    rcases hterm with h1 | h1 <;>
      simp [handleMqttRemoteControl, hres, hser, h1, he]

/-- Witness for `mqttVinMatch_spec`: a two-entry table where the second entry
is the only VIN match and is resolved; a VIN with no pending entry resolves
nothing. -/
theorem mqttVinMatch_spec_witness :
    handleMqttRemoteControl
        [("S1", ⟨"V1", "LOCKDOOR", 1⟩), ("S2", ⟨"V2", "OPENDOOR", 2⟩)] "V2"
        { controlState := .num 2 } =
      ([("S1", ⟨"V1", "LOCKDOOR", 1⟩)], some ⟨"S2", false, .num 2⟩) ∧
    handleMqttRemoteControl [("S1", ⟨"V1", "LOCKDOOR", 1⟩)] "V9"
        { controlState := .num 2 } =
      ([("S1", ⟨"V1", "LOCKDOOR", 1⟩)], none) := by
  constructor
  · have h := (mqttVinMatch_spec
      [("S1", ⟨"V1", "LOCKDOOR", 1⟩), ("S2", ⟨"V2", "OPENDOOR", 2⟩)] "V2"
      { controlState := .num 2 } rfl rfl (Or.inr rfl)).1
      ("S2", ⟨"V2", "OPENDOOR", 2⟩) (by decide)
    rw [h]
    decide
  · have h := (mqttVinMatch_spec [("S1", ⟨"V1", "LOCKDOOR", 1⟩)] "V9"
      { controlState := .num 2 } rfl rfl (Or.inr rfl)).2 (by decide)
    rw [h]

set_option maxRecDepth 20000 in
/-- C2 counterexample: two payloads with the same key-value pairs inserted in
different orders produce different checkcodes — `computeCheckcode` hashes
`JSON.stringify(payload)`, which emits keys in insertion order and does not
sort them. -/
theorem computeCheckcode_order_counterexample :
    computeCheckcode [("a", "1"), ("b", "2")] ≠
        computeCheckcode [("b", "2"), ("a", "1")] ∧
      ([("a", "1"), ("b", "2")] : List (String × String)).Perm
        [("b", "2"), ("a", "1")] := by
  constructor
  · decide
  · decide

/-- C2 (amended): `computeCheckcode` is pure — it is a function of the
serialized JSON alone, hence deterministic for a fixed payload — but it does
not sort keys: the serialization follows insertion order, so permuting the
insertion order can change the checkcode. -/
theorem computeCheckcode_pure (p q : List (String × String))
    (h : jsonStringifyStrObj p = jsonStringifyStrObj q) :
    computeCheckcode p = computeCheckcode q := by
  unfold computeCheckcode
  rw [h]

/-- Witness for `computeCheckcode_pure` at a concrete payload. -/
theorem computeCheckcode_pure_witness :
    jsonStringifyStrObj [("a", "1")] = jsonStringifyStrObj [("a", "1")] ∧
      computeCheckcode [("a", "1")] = computeCheckcode [("a", "1")] :=
  ⟨rfl, computeCheckcode_pure [("a", "1")] [("a", "1")] rfl⟩

/-- `List.lookup` on a cons cell, with the key test as an `if`. -/
theorem lookup_cons {α : Type} (a : String) (b : α) (l : List (String × α))
    (v : String) :
    (((a, b) :: l).lookup v) = if v = a then some b else l.lookup v := by
  by_cases h : v = a
  · subst h
    simp [List.lookup]
  · have hb : (v == a) = false := beq_eq_false_iff_ne.mpr h
    simp [List.lookup, hb, h]

/-- Replacing the value stored under key `k` leaves lookups of other keys
unchanged and rewrites lookups of `k` when present. -/
theorem lookup_map_replace {α : Type} (l : List (String × α)) (k v : String)
    (w : α) :
    ((l.map (fun e => if e.1 = k then (k, w) else e)).lookup v) =
      if v = k then (if (l.lookup k).isSome then some w else none)
      else l.lookup v := by
  induction l with
  | nil => simp [List.lookup]
  | cons a t ih =>
    rw [List.map_cons]
    obtain ⟨a1, a2⟩ := a
    by_cases hak : a1 = k
    · subst hak
      by_cases hvk : v = a1
      · subst hvk
        simp [lookup_cons, ih]
      · simp [lookup_cons, ih, hvk]
    · by_cases hvk : v = k
      · subst hvk
        have hva : v ≠ a1 := Ne.symm hak
        simp [lookup_cons, ih, hva, hak]
        rw [lookup_cons, if_neg hva]
      · by_cases hva : v = a1
        · subst hva
          simp [lookup_cons, ih, hvk, hak]
        · simp [lookup_cons, ih, hvk, hva, hak]

/-- Lookup through an append. -/
theorem lookup_append {α : Type} (l l' : List (String × α)) (v : String) :
    (l ++ l').lookup v =
      match l.lookup v with
      | some x => some x
      | none => l'.lookup v := by
  induction l with
  | nil => simp [List.lookup]
  | cons a t ih =>
    obtain ⟨a1, a2⟩ := a
    rw [List.cons_append]
    by_cases hva : v = a1
    · rw [lookup_cons, if_pos hva, lookup_cons, if_pos hva]
    · rw [lookup_cons, if_neg hva, lookup_cons, if_neg hva, ih]

/-- Recording makes the name a member of the per-VIN set. -/
theorem mem_recordUnsupported_self (sets : List (String × List String))
    (vin name : String) :
    name ∈ (((recordUnsupported sets vin name).lookup vin).getD []) := by
  cases hl : sets.lookup vin with
  | some x =>
    simp only [recordUnsupported, hl]
    rw [if_pos (by simp)]
    rw [lookup_map_replace]
    simp [hl]
  | none =>
    simp only [recordUnsupported, hl]
    rw [if_neg (by simp)]
    rw [lookup_append]
    simp [hl, lookup_cons]

/-- Recording never removes an existing membership, for any VIN. -/
theorem mem_recordUnsupported_mono (sets : List (String × List String))
    (vin name v e : String)
    (he : e ∈ ((sets.lookup v).getD [])) :
    e ∈ (((recordUnsupported sets vin name).lookup v).getD []) := by
  by_cases hvv : v = vin
  · subst hvv
    cases hl : sets.lookup v with
    | some x =>
      simp only [recordUnsupported, hl]
      rw [if_pos (by simp)]
      rw [lookup_map_replace]
      simp only [if_pos rfl, hl, Option.isSome_some, if_true, Option.getD_some]
      rw [hl] at he
      exact List.mem_append_left _ (by simpa using he)
    | none => rw [hl] at he; simp at he
  · cases hl : sets.lookup vin with
    | some x =>
      simp only [recordUnsupported, hl]
      rw [if_pos (by simp)]
      rw [lookup_map_replace]
      simpa [hvv] using he
    | none =>
      simp only [recordUnsupported, hl]
      rw [if_neg (by simp)]
      rw [lookup_append]
      cases hl2 : sets.lookup v with
      | some x => rw [hl2] at he; simpa [hl2] using he
      | none => rw [hl2] at he; simp at he

/-- C7 counterexample: with the endpoint memoized unsupported and the cached
fallback value present but falsy (`totalEnergy = 0`), the skip path returns
nothing although the fallback field *is* cached, contradicting the claim's
"returns a degraded result ... when the endpoint's fallback field is cached". -/
theorem unsupported_fallback_falsy_counterexample :
    fetchStatusEndpoint true
        (⟨[("V", ["energy"])], [("V", [("totalEnergy", .num 0)])]⟩ : OrchState)
        "V" ⟨"energy", some "totalEnergy"⟩ (.decoded "0" none) =
      ((⟨[("V", ["energy"])], [("V", [("totalEnergy", .num 0)])]⟩ : OrchState),
        ⟨false, none⟩) ∧
    (((⟨[("V", ["energy"])], [("V", [("totalEnergy", .num 0)])]⟩ :
        OrchState).realtimeCache.lookup "V").getD []).lookup "totalEnergy" =
      some (.num 0) := by
  decide

/-- C7 (amended): (1) a "not supported" (code 1001) response for a VIN-scoped
endpoint records `(vin, endpoint)` in the unsupported set and synthesizes a
degraded fallback result exactly when a truthy cached fallback value exists;
(2) once recorded, a fetch with a live session performs no network call and
returns the degraded fallback result exactly when a truthy cached value
exists, else nothing; (3) no `fetchStatusEndpoint` call ever removes a
recorded pair, so a recorded pair persists for the rest of the run. -/
theorem unsupported_memoization_spec (st : OrchState) (vin : String)
    (ep : StatusEndpoint) :
    (∀ rd, ep.name ∉ ((st.unsupportedEndpoints.lookup vin).getD []) →
      (fetchStatusEndpoint true st vin ep (.decoded "1001" rd)).2 =
        ⟨true, fallbackParse st vin ep⟩ ∧
      ep.name ∈ (((fetchStatusEndpoint true st vin ep
        (.decoded "1001" rd)).1.unsupportedEndpoints.lookup vin).getD [])) ∧
    (ep.name ∈ ((st.unsupportedEndpoints.lookup vin).getD []) →
      ∀ resp, fetchStatusEndpoint true st vin ep resp =
        (st, ⟨false, fallbackParse st vin ep⟩)) ∧
    (∀ hs vin' ep' resp' v e, e ∈ ((st.unsupportedEndpoints.lookup v).getD []) →
      e ∈ (((fetchStatusEndpoint hs st vin' ep' resp').1.unsupportedEndpoints.lookup
        v).getD [])) := by
  refine ⟨?_, ?_, ?_⟩
  · intro rd hmem
    have hstep : fetchStatusEndpoint true st vin ep (.decoded "1001" rd) =
        (⟨recordUnsupported st.unsupportedEndpoints vin ep.name, st.realtimeCache⟩,
         ⟨true, fallbackParse st vin ep⟩) := by
      simp [fetchStatusEndpoint, hmem, isSessionExpired, isEndpointNotSupported]
    refine ⟨by rw [hstep], ?_⟩
    rw [hstep]
    exact mem_recordUnsupported_self _ _ _
  · intro hmem resp
    simp [fetchStatusEndpoint, hmem]
  · intro hs vin' ep' resp' v e he
    cases hs with
    | false => simpa [fetchStatusEndpoint] using he
    | true =>
      by_cases hmem : ep'.name ∈ ((st.unsupportedEndpoints.lookup vin').getD [])
      · simpa [fetchStatusEndpoint, hmem] using he
      · cases resp' with
        | httpError m => simpa [fetchStatusEndpoint, hmem] using he
        | decoded code rdata =>
          by_cases h0 : code = "0" ∧ rdata.isSome = true
          · simpa [fetchStatusEndpoint, hmem, h0] using he
          · by_cases hexp : isSessionExpired code = true
            · simpa [fetchStatusEndpoint, hmem, h0, hexp] using he
            · by_cases hns : isEndpointNotSupported code = true
              · have hstep : (fetchStatusEndpoint true st vin' ep'
                    (.decoded code rdata)).1 =
                      ⟨recordUnsupported st.unsupportedEndpoints vin' ep'.name,
                        st.realtimeCache⟩ := by
                  simp [fetchStatusEndpoint, hmem, h0, hexp, hns]
                rw [hstep]
                exact mem_recordUnsupported_mono _ _ _ _ _ he
              · simpa [fetchStatusEndpoint, hmem, h0, hexp, hns] using he

/-- Witness for `unsupported_memoization_spec`: a fresh state records the
`energy` endpoint on a 1001 response; in the recorded state a fetch skips the
network and synthesizes the cached truthy fallback. -/
theorem unsupported_memoization_spec_witness :
    (fetchStatusEndpoint true ⟨[], [("V", [("totalEnergy", .num 42)])]⟩ "V"
        ⟨"energy", some "totalEnergy"⟩ (.decoded "1001" none)).2 =
      ⟨true, some (.fallback "totalEnergy" (.num 42))⟩ ∧
    fetchStatusEndpoint true
        ⟨[("V", ["energy"])], [("V", [("totalEnergy", .num 42)])]⟩ "V"
        ⟨"energy", some "totalEnergy"⟩ (.decoded "0" (some [])) =
      (⟨[("V", ["energy"])], [("V", [("totalEnergy", .num 42)])]⟩,
        ⟨false, some (.fallback "totalEnergy" (.num 42))⟩) := by
  constructor
  · have h := ((unsupported_memoization_spec
      ⟨[], [("V", [("totalEnergy", .num 42)])]⟩ "V"
      ⟨"energy", some "totalEnergy"⟩).1 none (by decide)).1
    rw [h]
    decide
  · have h := (unsupported_memoization_spec
      ⟨[("V", ["energy"])], [("V", [("totalEnergy", .num 42)])]⟩ "V"
      ⟨"energy", some "totalEnergy"⟩).2.1 (by decide) (.decoded "0" (some []))
    rw [h]
    decide

/-- An expiry-classified code is `"1005"` or `"1010"`. -/
theorem isSessionExpired_cases (c : String) (h : isSessionExpired c = true) :
    c = "1005" ∨ c = "1010" := by
  simpa [isSessionExpired] using h

/-- A control-password-classified code is `"5005"` or `"5006"`. -/
theorem isControlPasswordError_cases (c : String)
    (h : isControlPasswordError c = true) : c = "5005" ∨ c = "5006" := by
  simpa [isControlPasswordError] using h

/-- A rate-limit-classified code is `"6024"`. -/
theorem isRateLimited_cases (c : String) (h : isRateLimited c = true) :
    c = "6024" := by
  simpa [isRateLimited] using h

/-- A transport error surfaces as a failure after one trigger call. -/
theorem trig_eval_httpError (server : Nat → TrigResp) (loginOk : Nat → Bool)
    (ci li r : Nat) (m : String) (hsv : server ci = .httpError m) :
    sendRemoteControlTrig server loginOk ci li r = ⟨.failure m, 1, 0, 0⟩ := by
  rw [sendRemoteControlTrig, hsv]

/-- A `code === '0'` response without a serial fails with `No requestSerial`. -/
theorem trig_eval_ok_none (server : Nat → TrigResp) (loginOk : Nat → Bool)
    (ci li r : Nat) (hsv : server ci = .decoded "0" none) :
    sendRemoteControlTrig server loginOk ci li r =
      ⟨.failure "No requestSerial", 1, 0, 0⟩ := by
  rw [sendRemoteControlTrig, hsv]
  simp

/-- A `code === '0'` response with a (truthy) serial proceeds to the wait
phase. -/
theorem trig_eval_ok_some (server : Nat → TrigResp) (loginOk : Nat → Bool)
    (ci li r : Nat) (s : String) (hsv : server ci = .decoded "0" (some s))
    (hs : ¬s = "") :
    sendRemoteControlTrig server loginOk ci li r = ⟨.proceed s, 1, 0, 0⟩ := by
  rw [sendRemoteControlTrig, hsv]
  simp [hs]

/-- A `code === '0'` response with an empty (falsy) serial fails with
`No requestSerial`. -/
theorem trig_eval_ok_empty (server : Nat → TrigResp) (loginOk : Nat → Bool)
    (ci li r : Nat) (hsv : server ci = .decoded "0" (some "")) :
    sendRemoteControlTrig server loginOk ci li r =
      ⟨.failure "No requestSerial", 1, 0, 0⟩ := by
  rw [sendRemoteControlTrig, hsv]
  simp

/-- A control-password error code surfaces immediately, never retried. -/
theorem trig_eval_password (server : Nat → TrigResp) (loginOk : Nat → Bool)
    (ci li r : Nat) (c : String) (serial : Option String)
    (hsv : server ci = .decoded c serial) (hc : isControlPasswordError c = true) :
    sendRemoteControlTrig server loginOk ci li r =
      ⟨.failure "control password error", 1, 0, 0⟩ := by
  rcases isControlPasswordError_cases c hc with rfl | rfl <;>
    (rw [sendRemoteControlTrig, hsv]; simp [isControlPasswordError, isRateLimited, isSessionExpired, isRemoteControlServiceError])

/-- A rate-limit code below the attempt cap sleeps once and re-issues the
trigger with `retryCount + 1`. -/
theorem trig_eval_rate_retry (server : Nat → TrigResp) (loginOk : Nat → Bool)
    (ci li r : Nat) (serial : Option String)
    (hsv : server ci = .decoded "6024" serial)
    (hr : r < MAX_RATE_LIMIT_RETRIES) :
    sendRemoteControlTrig server loginOk ci li r =
      ⟨(sendRemoteControlTrig server loginOk (ci + 1) li (r + 1)).result,
       (sendRemoteControlTrig server loginOk (ci + 1) li (r + 1)).triggers + 1,
       (sendRemoteControlTrig server loginOk (ci + 1) li (r + 1)).logins,
       (sendRemoteControlTrig server loginOk (ci + 1) li (r + 1)).sleeps + 1⟩ := by
  rw [sendRemoteControlTrig, hsv]
  simp [hr, isControlPasswordError, isRateLimited, isSessionExpired, isRemoteControlServiceError]

/-- A rate-limit code at the attempt cap fails with `Rate limit exceeded`
without recursing. -/
theorem trig_eval_rate_capped (server : Nat → TrigResp) (loginOk : Nat → Bool)
    (ci li r : Nat) (serial : Option String)
    (hsv : server ci = .decoded "6024" serial)
    (hr : ¬r < MAX_RATE_LIMIT_RETRIES) :
    sendRemoteControlTrig server loginOk ci li r =
      ⟨.failure "Rate limit exceeded", 1, 0, 0⟩ := by
  rw [sendRemoteControlTrig, hsv]
  simp [hr, isControlPasswordError, isRateLimited, isSessionExpired, isRemoteControlServiceError]

/-- A session-expired code with a successful re-login and `retryCount < 1`
performs the single re-issue. -/
theorem trig_eval_expired_retry (server : Nat → TrigResp) (loginOk : Nat → Bool)
    (ci li r : Nat) (c : String) (serial : Option String)
    (hsv : server ci = .decoded c serial) (hc : isSessionExpired c = true)
    (hl : loginOk li = true) (hr : r < 1) :
    sendRemoteControlTrig server loginOk ci li r =
      ⟨(sendRemoteControlTrig server loginOk (ci + 1) (li + 1) (r + 1)).result,
       (sendRemoteControlTrig server loginOk (ci + 1) (li + 1) (r + 1)).triggers + 1,
       (sendRemoteControlTrig server loginOk (ci + 1) (li + 1) (r + 1)).logins + 1,
       (sendRemoteControlTrig server loginOk (ci + 1) (li + 1) (r + 1)).sleeps⟩ := by
  rcases isSessionExpired_cases c hc with rfl | rfl <;>
    (rw [sendRemoteControlTrig, hsv]; simp [hl, hr, isControlPasswordError, isRateLimited, isSessionExpired, isRemoteControlServiceError])

/-- A session-expired code with a failed re-login or `retryCount ≥ 1` invokes
login once and surfaces `Session expired` without re-issuing the trigger. -/
theorem trig_eval_expired_fail (server : Nat → TrigResp) (loginOk : Nat → Bool)
    (ci li r : Nat) (c : String) (serial : Option String)
    (hsv : server ci = .decoded c serial) (hc : isSessionExpired c = true)
    (hlr : ¬(loginOk li = true ∧ r < 1)) :
    sendRemoteControlTrig server loginOk ci li r =
      ⟨.failure "Session expired", 1, 1, 0⟩ := by
  rcases isSessionExpired_cases c hc with rfl | rfl <;>
    (rw [sendRemoteControlTrig, hsv]
     simp [hlr, isControlPasswordError, isRateLimited, isSessionExpired,
       isRemoteControlServiceError]) <;>
    (intro h1 h2
     exact absurd ⟨h1, by omega⟩ hlr)

/-- Any other non-success code surfaces after one trigger call. -/
theorem trig_eval_other (server : Nat → TrigResp) (loginOk : Nat → Bool)
    (ci li r : Nat) (c : String) (serial : Option String)
    (hsv : server ci = .decoded c serial) (hc0 : ¬c = "0")
    (hpw : isControlPasswordError c = false) (hrl : isRateLimited c = false)
    (hse : isSessionExpired c = false)
    (hsvc : isRemoteControlServiceError c = false) :
    sendRemoteControlTrig server loginOk ci li r =
      if isRemoteControlServiceError c = true then
        ⟨.failure "Vehicle unreachable (1009)", 1, 0, 0⟩
      else ⟨.failure ("API error: " ++ c), 1, 0, 0⟩ := by
  rw [sendRemoteControlTrig, hsv]
  simp [hc0, hpw, hrl, hse, hsvc]

/-- The `1009` service-error code surfaces after one trigger call. -/
theorem trig_eval_service (server : Nat → TrigResp) (loginOk : Nat → Bool)
    (ci li r : Nat) (serial : Option String)
    (hsv : server ci = .decoded "1009" serial) :
    sendRemoteControlTrig server loginOk ci li r =
      ⟨.failure "Vehicle unreachable (1009)", 1, 0, 0⟩ := by
  rw [sendRemoteControlTrig, hsv]
  simp [isControlPasswordError, isRateLimited, isSessionExpired, isRemoteControlServiceError]

/-- Login-call bound for the trigger phase: at most `2 - min r 1` logins from
`retryCount = r` — so at most two logins from the public entry `r = 0` and at
most one more once a retry has happened. -/
theorem sendRemoteControlTrig_logins_le (server : Nat → TrigResp)
    (loginOk : Nat → Bool) :
    ∀ fuel ci li r, 3 - r ≤ fuel →
      (sendRemoteControlTrig server loginOk ci li r).logins ≤ 2 - min r 1 := by
  intro fuel
  induction fuel with
  | zero =>
    intro ci li r hfuel
    have hr : 3 ≤ r := by omega
    cases hsv : server ci with
    | httpError m => rw [trig_eval_httpError server loginOk ci li r m hsv]; simp
    | decoded code serial =>
      by_cases h0 : code = "0"
      · subst h0
        cases serial with
        | none => rw [trig_eval_ok_none server loginOk ci li r hsv]; simp
        | some s =>
          by_cases hs : s = ""
          · subst hs
            rw [trig_eval_ok_empty server loginOk ci li r hsv]; simp
          · rw [trig_eval_ok_some server loginOk ci li r s hsv hs]; simp
      · cases hpw : isControlPasswordError code with
        | true => rw [trig_eval_password server loginOk ci li r code serial hsv hpw]; simp
        | false =>
          cases hrl : isRateLimited code with
          | true =>
            rcases isRateLimited_cases code hrl with rfl
            rw [trig_eval_rate_capped server loginOk ci li r serial hsv
              (by simp [MAX_RATE_LIMIT_RETRIES]; omega)]
            simp
          | false =>
            cases hse : isSessionExpired code with
            | true =>
              rw [trig_eval_expired_fail server loginOk ci li r code serial hsv hse
                (by rintro ⟨-, h⟩; omega)]
              simp
              omega
            | false =>
              cases hsvc : isRemoteControlServiceError code with
              | true =>
                have : code = "1009" := by simpa [isRemoteControlServiceError] using hsvc
                subst this
                rw [trig_eval_service server loginOk ci li r serial hsv]; simp
              | false =>
                rw [trig_eval_other server loginOk ci li r code serial hsv h0 hpw
                  hrl hse hsvc]
                simp [hsvc]
  | succ fuel ih =>
    intro ci li r hfuel
    cases hsv : server ci with
    | httpError m => rw [trig_eval_httpError server loginOk ci li r m hsv]; simp
    | decoded code serial =>
      by_cases h0 : code = "0"
      · subst h0
        cases serial with
        | none => rw [trig_eval_ok_none server loginOk ci li r hsv]; simp
        | some s =>
          by_cases hs : s = ""
          · subst hs
            rw [trig_eval_ok_empty server loginOk ci li r hsv]; simp
          · rw [trig_eval_ok_some server loginOk ci li r s hsv hs]; simp
      · cases hpw : isControlPasswordError code with
        | true => rw [trig_eval_password server loginOk ci li r code serial hsv hpw]; simp
        | false =>
          cases hrl : isRateLimited code with
          | true =>
            rcases isRateLimited_cases code hrl with rfl
            by_cases hr3 : r < MAX_RATE_LIMIT_RETRIES
            · rw [trig_eval_rate_retry server loginOk ci li r serial hsv hr3]
              have hrec := ih (ci + 1) li (r + 1) (by omega)
              simp
              omega
            · rw [trig_eval_rate_capped server loginOk ci li r serial hsv hr3]; simp
          | false =>
            cases hse : isSessionExpired code with
            | true =>
              by_cases hlr : loginOk li = true ∧ r < 1
              · rw [trig_eval_expired_retry server loginOk ci li r code serial hsv
                  hse hlr.1 hlr.2]
                have hrec := ih (ci + 1) (li + 1) (r + 1) (by omega)
                simp
                omega
              · rw [trig_eval_expired_fail server loginOk ci li r code serial hsv
                  hse hlr]
                simp
                omega
            | false =>
              cases hsvc : isRemoteControlServiceError code with
              | true =>
                have : code = "1009" := by simpa [isRemoteControlServiceError] using hsvc
                subst this
                rw [trig_eval_service server loginOk ci li r serial hsv]; simp
              | false =>
                rw [trig_eval_other server loginOk ci li r code serial hsv h0 hpw
                  hrl hse hsvc]
                simp [hsvc]

/-- Trigger-call bound: at most `4 - min r 3` trigger issues from
`retryCount = r`, hence at most 4 overall (one initial call plus at most three
retries); the retry recursion always terminates. -/
theorem sendRemoteControlTrig_triggers_le (server : Nat → TrigResp)
    (loginOk : Nat → Bool) :
    ∀ fuel ci li r, 3 - r ≤ fuel →
      (sendRemoteControlTrig server loginOk ci li r).triggers ≤ 4 - min r 3 := by
  intro fuel
  induction fuel with
  | zero =>
    intro ci li r hfuel
    have hr : 3 ≤ r := by omega
    have hmin : min r 3 = 3 := by omega
    cases hsv : server ci with
    | httpError m =>
      rw [trig_eval_httpError server loginOk ci li r m hsv]
      simp
      omega
    | decoded code serial =>
      by_cases h0 : code = "0"
      · subst h0
        cases serial with
        | none => rw [trig_eval_ok_none server loginOk ci li r hsv]; simp; omega
        | some s =>
          by_cases hs : s = ""
          · subst hs
            rw [trig_eval_ok_empty server loginOk ci li r hsv]; simp; omega
          · rw [trig_eval_ok_some server loginOk ci li r s hsv hs]; simp; omega
      · cases hpw : isControlPasswordError code with
        | true =>
          rw [trig_eval_password server loginOk ci li r code serial hsv hpw]
          simp
          omega
        | false =>
          cases hrl : isRateLimited code with
          | true =>
            rcases isRateLimited_cases code hrl with rfl
            rw [trig_eval_rate_capped server loginOk ci li r serial hsv
              (by simp [MAX_RATE_LIMIT_RETRIES]; omega)]
            simp
            omega
          | false =>
            cases hse : isSessionExpired code with
            | true =>
              rw [trig_eval_expired_fail server loginOk ci li r code serial hsv hse
                (by rintro ⟨-, h⟩; omega)]
              simp
              omega
            | false =>
              cases hsvc : isRemoteControlServiceError code with
              | true =>
                have : code = "1009" := by simpa [isRemoteControlServiceError] using hsvc
                subst this
                rw [trig_eval_service server loginOk ci li r serial hsv]
                simp
                omega
              | false =>
                rw [trig_eval_other server loginOk ci li r code serial hsv h0 hpw
                  hrl hse hsvc]
                simp [hsvc]
                omega
  | succ fuel ih =>
    intro ci li r hfuel
    cases hsv : server ci with
    | httpError m =>
      rw [trig_eval_httpError server loginOk ci li r m hsv]
      simp
      omega
    | decoded code serial =>
      by_cases h0 : code = "0"
      · subst h0
        cases serial with
        | none => rw [trig_eval_ok_none server loginOk ci li r hsv]; simp; omega
        | some s =>
          by_cases hs : s = ""
          · subst hs
            rw [trig_eval_ok_empty server loginOk ci li r hsv]; simp; omega
          · rw [trig_eval_ok_some server loginOk ci li r s hsv hs]; simp; omega
      · cases hpw : isControlPasswordError code with
        | true =>
          rw [trig_eval_password server loginOk ci li r code serial hsv hpw]
          simp
          omega
        | false =>
          cases hrl : isRateLimited code with
          | true =>
            rcases isRateLimited_cases code hrl with rfl
            by_cases hr3 : r < MAX_RATE_LIMIT_RETRIES
            · rw [trig_eval_rate_retry server loginOk ci li r serial hsv hr3]
              have hrec := ih (ci + 1) li (r + 1) (by omega)
              have hr3' : r < 3 := by simpa [MAX_RATE_LIMIT_RETRIES] using hr3
              simp only
              omega
            · rw [trig_eval_rate_capped server loginOk ci li r serial hsv hr3]
              simp
              omega
          | false =>
            cases hse : isSessionExpired code with
            | true =>
              by_cases hlr : loginOk li = true ∧ r < 1
              · rw [trig_eval_expired_retry server loginOk ci li r code serial hsv
                  hse hlr.1 hlr.2]
                have hrec := ih (ci + 1) (li + 1) (r + 1) (by omega)
                have hr1 : r < 1 := hlr.2
                simp only
                omega
              · rw [trig_eval_expired_fail server loginOk ci li r code serial hsv
                  hse hlr]
                simp
                omega
            | false =>
              cases hsvc : isRemoteControlServiceError code with
              | true =>
                have : code = "1009" := by simpa [isRemoteControlServiceError] using hsvc
                subst this
                rw [trig_eval_service server loginOk ci li r serial hsv]
                simp
                omega
              | false =>
                rw [trig_eval_other server loginOk ci li r code serial hsv h0 hpw
                  hrl hse hsvc]
                simp [hsvc]
                omega

/-- C6: the rate-limit retry policy of the `sendRemoteControl` trigger phase:
the attempt cap is 3 and the backoff 5000 ms (seconds-scale); the trigger is
issued at most 4 times from the public entry regardless of server behaviour
(the recursion always terminates — the model is a total function); at the cap
a rate-limit code returns the rate-limit failure without recursing; and under
a permanently rate-limiting server the operation sleeps and re-issues exactly
3 times and then fails with `Rate limit exceeded`. -/
theorem rateLimit_retry_spec (server : Nat → TrigResp) (loginOk : Nat → Bool) :
    MAX_RATE_LIMIT_RETRIES = 3 ∧ RATE_LIMIT_DELAY_MS = 5000 ∧
    (∀ ci li r, (sendRemoteControlTrig server loginOk ci li r).triggers ≤ 4) ∧
    (∀ ci li r serial, server ci = .decoded "6024" serial → 3 ≤ r →
      sendRemoteControlTrig server loginOk ci li r =
        ⟨.failure "Rate limit exceeded", 1, 0, 0⟩) ∧
    ((∀ n, server n = .decoded "6024" none) → ∀ ci li,
      sendRemoteControlTrig server loginOk ci li 0 =
        ⟨.failure "Rate limit exceeded", 4, 0, 3⟩) := by
  refine ⟨rfl, rfl, ?_, ?_, ?_⟩
  · intro ci li r
    have h := sendRemoteControlTrig_triggers_le server loginOk 3 ci li r (by omega)
    omega
  · intro ci li r serial hsv hr
    exact trig_eval_rate_capped server loginOk ci li r serial hsv
      (by simp [MAX_RATE_LIMIT_RETRIES]; omega)
  · intro hall ci li
    have e0 := trig_eval_rate_retry server loginOk ci li 0 none (hall ci)
      (by simp [MAX_RATE_LIMIT_RETRIES])
    have e1 := trig_eval_rate_retry server loginOk (ci + 1) li (0 + 1) none
      (hall (ci + 1)) (by simp [MAX_RATE_LIMIT_RETRIES])
    have e2 := trig_eval_rate_retry server loginOk (ci + 1 + 1) li (0 + 1 + 1)
      none (hall (ci + 1 + 1)) (by simp [MAX_RATE_LIMIT_RETRIES])
    have e3 := trig_eval_rate_capped server loginOk (ci + 1 + 1 + 1) li
      (0 + 1 + 1 + 1) none (hall (ci + 1 + 1 + 1))
      (by simp [MAX_RATE_LIMIT_RETRIES])
    rw [e0, e1, e2, e3]

/-- Witness for `rateLimit_retry_spec`: the permanently rate-limited oracle. -/
theorem rateLimit_retry_spec_witness :
    sendRemoteControlTrig (fun _ => .decoded "6024" none) (fun _ => true) 0 0 0 =
      ⟨.failure "Rate limit exceeded", 4, 0, 3⟩ :=
  (rateLimit_retry_spec (fun _ => .decoded "6024" none) (fun _ => true)).2.2.2.2
    (fun _ => rfl) 0 0

/-- C5 counterexample: a server that reports session-expired on both the
first trigger and the single retry makes the operation clear the session and
invoke `login()` twice before surfacing `Session expired` — not "exactly one
re-login attempt". -/
theorem sessionExpiry_two_logins_counterexample :
    sendRemoteControlTrig (fun _ => .decoded "1005" none) (fun _ => true) 0 0 0 =
      ⟨.failure "Session expired", 2, 2, 0⟩ ∧ (2 : Nat) ≠ 1 := by
  constructor
  · have e0 := trig_eval_expired_retry (fun _ => .decoded "1005" none)
      (fun _ => true) 0 0 0 "1005" none rfl (by decide) rfl (by omega)
    have e1 := trig_eval_expired_fail (fun _ => .decoded "1005" none)
      (fun _ => true) 1 1 1 "1005" none rfl (by decide)
      (by rintro ⟨-, h⟩; omega)
    rw [e0, e1]
  · decide

/-- C5 (amended): on each session-expired code the session is cleared and
`login()` is invoked once; the trigger is re-issued only after the first
expiry (`retryCount = 0`) when re-login succeeded; an expiry at
`retryCount ≥ 1` — or a failed re-login — surfaces `Session expired` with no
further trigger; in total at most two login invocations occur per operation. -/
theorem sessionExpiry_spec (server : Nat → TrigResp) (loginOk : Nat → Bool) :
    (∀ ci li r, (sendRemoteControlTrig server loginOk ci li r).logins ≤ 2) ∧
    (∀ ci li r c serial, server ci = .decoded c serial →
      isSessionExpired c = true → 1 ≤ r →
      sendRemoteControlTrig server loginOk ci li r =
        ⟨.failure "Session expired", 1, 1, 0⟩) ∧
    (∀ ci li c serial, server ci = .decoded c serial →
      isSessionExpired c = true → loginOk li = false →
      sendRemoteControlTrig server loginOk ci li 0 =
        ⟨.failure "Session expired", 1, 1, 0⟩) ∧
    (∀ ci li c serial, server ci = .decoded c serial →
      isSessionExpired c = true → loginOk li = true →
      sendRemoteControlTrig server loginOk ci li 0 =
        ⟨(sendRemoteControlTrig server loginOk (ci + 1) (li + 1) 1).result,
         (sendRemoteControlTrig server loginOk (ci + 1) (li + 1) 1).triggers + 1,
         (sendRemoteControlTrig server loginOk (ci + 1) (li + 1) 1).logins + 1,
         (sendRemoteControlTrig server loginOk (ci + 1) (li + 1) 1).sleeps⟩) := by
  refine ⟨?_, ?_, ?_, ?_⟩
  · intro ci li r
    have h := sendRemoteControlTrig_logins_le server loginOk 3 ci li r (by omega)
    omega
  · intro ci li r c serial hsv hc hr
    exact trig_eval_expired_fail server loginOk ci li r c serial hsv hc
      (by rintro ⟨-, h⟩; omega)
  · intro ci li c serial hsv hc hl
    refine trig_eval_expired_fail server loginOk ci li 0 c serial hsv hc ?_
    rintro ⟨h1, -⟩
    rw [hl] at h1
    exact Bool.false_ne_true h1
  · intro ci li c serial hsv hc hl
    exact trig_eval_expired_retry server loginOk ci li 0 c serial hsv hc hl
      (by omega)

/-- Witness for `sessionExpiry_spec`: an expiry at `retryCount = 1` surfaces
the failure after a single further login, and the login count from the public
entry is within the bound. -/
theorem sessionExpiry_spec_witness :
    sendRemoteControlTrig (fun _ => .decoded "1010" none) (fun _ => true) 1 1 1 =
      ⟨.failure "Session expired", 1, 1, 0⟩ ∧
    (sendRemoteControlTrig (fun _ => .decoded "1010" none)
      (fun _ => true) 0 0 0).logins ≤ 2 :=
  ⟨(sessionExpiry_spec (fun _ => .decoded "1010" none) (fun _ => true)).2.1
      1 1 1 "1010" none rfl (by decide) (by omega),
   (sessionExpiry_spec (fun _ => .decoded "1010" none) (fun _ => true)).1 0 0 0⟩

/-- Decoding a base64 character produced from a sextet recovers the sextet. -/
theorem b64Val_b64Char : ∀ n < 64, b64Val (b64Char n) = n := by decide

/-- Base64 characters of sextets are never the padding character. -/
theorem b64Char_ne_pad : ∀ n < 64, b64Char n ≠ '=' := by decide

/-- Base64 characters of sextets lie in the alphabet. -/
theorem b64Char_mem : ∀ n < 64, b64Char n ∈ b64Alphabet := by decide

/-- No alphabet character is whitespace, `-` or `_`. -/
theorem b64Alphabet_clean :
    ∀ c ∈ b64Alphabet, jsIsSpace c = false ∧ c ≠ '-' ∧ c ≠ '_' := by decide

/-- The padding character is not whitespace, `-` or `_`. -/
theorem pad_clean : jsIsSpace '=' = false ∧ ('=' : Char) ≠ '-' ∧
    ('=' : Char) ≠ '_' := by decide

/-- Length of a base64 encoding. -/
theorem b64EncodeBytes_length :
    ∀ bs : List Nat, (b64EncodeBytes bs).length = (bs.length + 2) / 3 * 4
  | [] => rfl
  | [_] => by norm_num [b64EncodeBytes]
  | [_, _] => by norm_num [b64EncodeBytes]
  | a :: b :: c :: rest => by
    have ih := b64EncodeBytes_length rest
    simp only [b64EncodeBytes, List.length_cons, ih]
    omega

/-- Every character of a base64 encoding of bytes lies in the alphabet or is
the padding character. -/
theorem b64EncodeBytes_chars :
    ∀ bs : List Nat, (∀ b ∈ bs, b < 256) →
      ∀ ch ∈ b64EncodeBytes bs, ch ∈ b64Alphabet ∨ ch = '='
  | [], _ => by simp [b64EncodeBytes]
  | [a], h => by
    have ha : a < 256 := h a (by simp)
    simp only [b64EncodeBytes, List.mem_cons, List.not_mem_nil, or_false]
    rintro ch (rfl | rfl | rfl | rfl)
    · exact Or.inl (b64Char_mem _ (by omega))
    · exact Or.inl (b64Char_mem _ (by omega))
    · exact Or.inr rfl
    · exact Or.inr rfl
  | [a, b], h => by
    have ha : a < 256 := h a (by simp)
    have hb : b < 256 := h b (by simp)
    simp only [b64EncodeBytes, List.mem_cons, List.not_mem_nil, or_false]
    rintro ch (rfl | rfl | rfl | rfl)
    · exact Or.inl (b64Char_mem _ (by omega))
    · exact Or.inl (b64Char_mem _ (by omega))
    · exact Or.inl (b64Char_mem _ (by omega))
    · exact Or.inr rfl
  | a :: b :: c :: rest, h => by
    have ha : a < 256 := h a (by simp)
    have hb : b < 256 := h b (by simp)
    have hc : c < 256 := h c (by simp)
    have ih := b64EncodeBytes_chars rest (fun y hy => h y (by simp [hy]))
    simp only [b64EncodeBytes, List.mem_cons]
    rintro ch (rfl | rfl | rfl | rfl | hch)
    · exact Or.inl (b64Char_mem _ (by omega))
    · exact Or.inl (b64Char_mem _ (by omega))
    · exact Or.inl (b64Char_mem _ (by omega))
    · exact Or.inl (b64Char_mem _ (by omega))
    · exact ih ch hch

/-- Base64 decoding inverts base64 encoding on byte lists. -/
theorem b64_decode_encode :
    ∀ bs : List Nat, (∀ b ∈ bs, b < 256) →
      b64DecodeChars (b64EncodeBytes bs) = bs
  | [], _ => rfl
  | [a], h => by
    have ha : a < 256 := h a (by simp)
    have h1 := b64Val_b64Char (a / 4) (by omega)
    have h2 := b64Val_b64Char (a % 4 * 16) (by omega)
    simp [b64EncodeBytes, b64DecodeChars, h1, h2]
    omega
  | [a, b], h => by
    have ha : a < 256 := h a (by simp)
    have hb : b < 256 := h b (by simp)
    have h1 := b64Val_b64Char (a / 4) (by omega)
    have h2 := b64Val_b64Char (a % 4 * 16 + b / 16) (by omega)
    have h3 := b64Val_b64Char (b % 16 * 4) (by omega)
    have hz := b64Char_ne_pad (b % 16 * 4) (by omega)
    simp [b64EncodeBytes, b64DecodeChars, h1, h2, h3, hz]
    omega
  | a :: b :: c :: rest, h => by
    have ha : a < 256 := h a (by simp)
    have hb : b < 256 := h b (by simp)
    have hc : c < 256 := h c (by simp)
    have ih := b64_decode_encode rest (fun y hy => h y (by simp [hy]))
    have h1 := b64Val_b64Char (a / 4) (by omega)
    have h2 := b64Val_b64Char (a % 4 * 16 + b / 16) (by omega)
    have h3 := b64Val_b64Char (b % 16 * 4 + c / 64) (by omega)
    have h4 := b64Val_b64Char (c % 64) (by omega)
    have hz := b64Char_ne_pad (b % 16 * 4 + c / 64) (by omega)
    have hw := b64Char_ne_pad (c % 64) (by omega)
    simp [b64EncodeBytes, b64DecodeChars, h1, h2, h3, h4, hz, hw, ih]
    omega

/-- `getD` over a mapped range. -/
theorem getD_map_range (n : Nat) (f : Nat → Nat) (i : Nat) (h : i < n) :
    ((List.range n).map f).getD i 0 = f i := by
  rw [List.getD_eq_getElem _ _ (by simpa using h)]
  simp

/-- An encrypted block is 16 bytes long. -/
theorem encryptBlockAuth_length (T : BangcleTables) (p : Nat) (b : List Nat) :
    (encryptBlockAuth T p b).length = 16 := by
  simp [encryptBlockAuth]

/-- Every byte of a full (`param3 = 10`) block encryption is below 256: the
terminal substitution pass stores every output cell through the `Uint8Array`
truncation. -/
theorem encryptBlockAuth_lt (T : BangcleTables) (b : List Nat) :
    ∀ y ∈ encryptBlockAuth T 10 b, y < 256 := by
  intro y hy
  unfold encryptBlockAuth at hy
  simp only [List.mem_map, List.mem_range] at hy
  obtain ⟨m, hm, rfl⟩ := hy
  rw [if_pos trivial]
  unfold encFinalPass
  rw [getD_map_range 32 _ (m % 4 * 8 + m / 4) (by omega)]
  have h4 : m / 4 < 8 := by omega
  have hdiv : (m % 4 * 8 + m / 4) / 8 = m % 4 := by
    rw [Nat.add_comm, Nat.add_mul_div_right _ _ (by norm_num : (0:Nat) < 8),
      Nat.div_eq_of_lt h4, Nat.zero_add]
  have hmod : (m % 4 * 8 + m / 4) % 8 = m / 4 := by
    rw [Nat.add_comm, Nat.add_mul_mod_self_right, Nat.mod_eq_of_lt h4]
  rw [if_pos ⟨by rw [hdiv]; omega, by rw [hmod]; omega⟩]
  exact Nat.mod_lt _ (by norm_num)

/-- `take` of an append at exactly the left length. -/
theorem take_left_of_len {α : Type} (l₁ l₂ : List α) (n : Nat)
    (h : l₁.length = n) : (l₁ ++ l₂).take n = l₁ := by
  subst h
  exact List.take_left l₁ l₂

/-- `drop` of an append at exactly the left length. -/
theorem drop_left_of_len {α : Type} (l₁ l₂ : List α) (n : Nat)
    (h : l₁.length = n) : (l₁ ++ l₂).drop n = l₂ := by
  subst h
  exact List.drop_left l₁ l₂

/-- Length of a byte-wise XOR. -/
theorem listXor_length (a b : List Nat) :
    (listXor a b).length = min a.length b.length := by
  simp [listXor]

/-- XOR with the same list twice is the identity (on equal lengths). -/
theorem listXor_cancel : ∀ (a b : List Nat), a.length = b.length →
    listXor (listXor a b) b = a
  | [], [], _ => rfl
  | [], _ :: _, h => by simp at h
  | _ :: _, [], h => by simp at h
  | x :: xs, y :: ys, h => by
    simp only [listXor, List.zipWith_cons_cons, List.cons.injEq]
    refine ⟨Nat.xor_cancel_right _ _, ?_⟩
    exact listXor_cancel xs ys (by simpa using h)

/-- Length of the CBC encryption loop output. -/
theorem encryptCbcGo_length (T : BangcleTables) :
    ∀ n data prev, (encryptCbcGo T n data prev).length = 16 * n
  | 0, _, _ => rfl
  | n + 1, data, prev => by
    simp only [encryptCbcGo, List.length_append, encryptBlockAuth_length,
      encryptCbcGo_length T n]
    omega

/-- Every byte of the CBC encryption loop output is below 256. -/
theorem encryptCbcGo_lt (T : BangcleTables) :
    ∀ n data prev y, y ∈ encryptCbcGo T n data prev → y < 256
  | 0, _, _, y => by simp [encryptCbcGo]
  | n + 1, data, prev, y => by
    intro hy
    simp only [encryptCbcGo, List.mem_append] at hy
    rcases hy with hy | hy
    · exact encryptBlockAuth_lt T _ y hy
    · exact encryptCbcGo_lt T n _ _ y hy

/-- The CBC decryption loop inverts the CBC encryption loop, assuming the
block primitive inverts on exactly the chained block inputs that occur. -/
theorem decryptCbcGo_encryptCbcGo (T : BangcleTables) :
    ∀ n data prev, data.length = 16 * n → prev.length = 16 →
      (∀ bl ∈ encBlockInputs T n data prev,
        decryptBlockAuth T 1 (encryptBlockAuth T 10 bl) = bl) →
      decryptCbcGo T n (encryptCbcGo T n data prev) prev = data
  | 0, data, prev, hd, _, _ => by
    have : data = [] := List.eq_nil_of_length_eq_zero (by omega)
    simp [this, encryptCbcGo, decryptCbcGo]
  | n + 1, data, prev, hd, hp, hinv => by
    have htake : (data.take 16).length = 16 := by
      simp [List.length_take]; omega
    have hblk : (listXor (data.take 16) prev).length = 16 := by
      rw [listXor_length, htake, hp]
      simp
    have henc : (encryptBlockAuth T 10 (listXor (data.take 16) prev)).length = 16 :=
      encryptBlockAuth_length T 10 _
    have hhead := hinv (listXor (data.take 16) prev) (by
      simp [encBlockInputs])
    have htail : ∀ bl ∈ encBlockInputs T n (data.drop 16)
        (encryptBlockAuth T 10 (listXor (data.take 16) prev)),
        decryptBlockAuth T 1 (encryptBlockAuth T 10 bl) = bl := by
      intro bl hbl
      exact hinv bl (by simp [encBlockInputs, hbl])
    have ih := decryptCbcGo_encryptCbcGo T n (data.drop 16)
      (encryptBlockAuth T 10 (listXor (data.take 16) prev))
      (by simp [List.length_drop]; omega) henc htail
    simp only [encryptCbcGo, decryptCbcGo]
    rw [take_left_of_len _ _ 16 henc, drop_left_of_len _ _ 16 henc, hhead,
      listXor_cancel (data.take 16) prev (by rw [htake, hp]), ih]
    exact List.take_append_drop 16 data

/-- The last element of a list extended by a nonempty replicate. -/
theorem getLast_append_replicate (x : List Nat) (k v : Nat) :
    (x ++ List.replicate (k + 1) v).getLast? = some v := by
  induction x with
  | nil =>
    induction k with
    | zero => rfl
    | succ k ihk => simpa [List.replicate_succ] using ihk
  | cons a t ih =>
    rw [List.cons_append, List.getLast?_cons, ih]
    simp

/-- Stripping the padding added to a block-aligned buffer recovers it. -/
theorem stripPkcs7_addPkcs7 (x : List Nat) (h : x.length % 16 = 0) :
    stripPkcs7 (addPkcs7 x) = x := by
  have hadd : addPkcs7 x = x ++ List.replicate 16 16 := by
    simp [addPkcs7, h]
  rw [hadd]
  have hlast : (x ++ List.replicate 16 16).getLast? = some 16 :=
    getLast_append_replicate x 15 16
  rw [stripPkcs7_eq_of_last _ 16 hlast]
  rw [if_neg (by omega)]
  have hlen : (x ++ List.replicate 16 16).length = x.length + 16 := by simp
  rw [if_pos ?_]
  · rw [hlen]
    have hx : x.length + 16 - 16 = x.length := by omega
    rw [hx]
    exact take_left_of_len x _ x.length rfl
  · constructor
    · omega
    · rw [hlen]
      have hx : x.length + 16 - 16 = x.length := by omega
      rw [hx, drop_left_of_len x _ x.length rfl]
      simp

/-- A map that fixes every member is the identity. -/
theorem map_id_of_forall_fix {α : Type} (f : α → α) :
    ∀ l : List α, (∀ c ∈ l, f c = c) → l.map f = l
  | [], _ => rfl
  | a :: t, h => by
    rw [List.map_cons, h a (by simp), map_id_of_forall_fix f t
      (fun c hc => h c (by simp [hc]))]

/-- `normaliseCheckcodeInput` on a well-formed envelope `F<base64>`: the
whitespace filter and URL-safe replacements are the identity, the tag is
stripped and no padding is appended. -/
theorem normalise_envelope (cs : List Char) (hne : cs ≠ [])
    (hch : ∀ c ∈ cs, c ∈ b64Alphabet ∨ c = '=') (hlen : cs.length % 4 = 0) :
    normaliseCheckcodeInput ('F' :: cs) = .ok cs := by
  have hclean : ∀ c ∈ cs, jsIsSpace c = false ∧ c ≠ '-' ∧ c ≠ '_' := by
    intro c hc
    rcases hch c hc with hmem | rfl
    · exact b64Alphabet_clean c hmem
    · exact pad_clean
  have hfilter : ('F' :: cs).filter (fun c => !jsIsSpace c) = 'F' :: cs := by
    rw [List.filter_eq_self]
    intro c hc
    rcases List.mem_cons.mp hc with rfl | hc
    · decide
    · simp [(hclean c hc).1]
  have hmap : ('F' :: cs).map
      (fun c => if c = '-' then '+' else if c = '_' then '/' else c) =
      'F' :: cs := by
    apply map_id_of_forall_fix
    intro c hc
    rcases List.mem_cons.mp hc with rfl | hc
    · decide
    · simp [(hclean c hc).2.1, (hclean c hc).2.2]
  unfold normaliseCheckcodeInput
  simp only [hfilter, hmap, List.length_cons, List.head?_cons]
  have hlc : cs.length ≠ 0 := fun h0 => hne (List.eq_nil_of_length_eq_zero h0)
  rw [if_neg (by omega)]
  have hcond : (True ∨ (some 'F' = some 'S')) ∧ 1 < cs.length + 1 :=
    ⟨Or.inl trivial, by omega⟩
  rw [if_pos hcond]
  simp only [List.drop_one, List.tail_cons]
  rw [if_pos hlen]

/-- `>>=` on an `Except.ok` value applies the continuation. -/
theorem exceptOkBind {α β : Type} (v : α) (f : α → Except String β) :
    (Except.ok v >>= f) = f v := rfl

/-- C1: decoding the encoded envelope returns the plaintext exactly, for every
byte sequence whose length is a multiple of 16, for any cipher tables whose
block decryption inverts block encryption on the chained block inputs that
occur (the tables themselves are opaque vendor blobs not present in the
sources; `wTables` witnesses that the hypothesis is satisfiable). -/
theorem decodeEnvelope_encodeEnvelope (T : BangcleTables) (x : List Nat)
    (hlen : x.length % 16 = 0)
    (hinv : ∀ bl ∈ encBlockInputs T (x.length / 16 + 1) (addPkcs7 x)
        (List.replicate 16 0),
      decryptBlockAuth T 1 (encryptBlockAuth T 10 bl) = bl) :
    (encodeEnvelope T x).bind (decodeEnvelope T) = Except.ok x := by
  have hpadlen : (addPkcs7 x).length = x.length + 16 := by
    simp [addPkcs7, hlen]
  have hpadmod : (addPkcs7 x).length % 16 = 0 := by omega
  have hnblocks : (addPkcs7 x).length / 16 = x.length / 16 + 1 := by omega
  set ct := encryptCbcGo T ((addPkcs7 x).length / 16) (addPkcs7 x)
    (List.replicate 16 0) with hct
  have hcbc : encryptCbc T (addPkcs7 x) (List.replicate 16 0) = .ok ct := by
    unfold encryptCbc
    rw [if_neg (by omega), if_neg (by simp)]
  have henc : encodeEnvelope T x = .ok ('F' :: b64EncodeBytes ct) := by
    unfold encodeEnvelope
    simp only [hcbc]
    rfl
  have hctlen : ct.length = (addPkcs7 x).length := by
    rw [hct, encryptCbcGo_length]
    omega
  have hctlt : ∀ y ∈ ct, y < 256 := fun y hy => encryptCbcGo_lt T _ _ _ y hy
  have hctne : ct.length ≠ 0 := by omega
  have hb64len : (b64EncodeBytes ct).length % 4 = 0 := by
    rw [b64EncodeBytes_length]
    omega
  have hb64ne : b64EncodeBytes ct ≠ [] := by
    intro h0
    have hl := b64EncodeBytes_length ct
    rw [h0] at hl
    simp at hl
    omega
  have hnorm := normalise_envelope (b64EncodeBytes ct) hb64ne
    (b64EncodeBytes_chars ct hctlt) hb64len
  have hdecchars : b64DecodeChars (b64EncodeBytes ct) = ct :=
    b64_decode_encode ct hctlt
  have hinv' : ∀ bl ∈ encBlockInputs T ((addPkcs7 x).length / 16) (addPkcs7 x)
      (List.replicate 16 0),
      decryptBlockAuth T 1 (encryptBlockAuth T 10 bl) = bl := by
    rw [hnblocks]
    exact hinv
  have hdec : decryptCbc T ct (List.replicate 16 0) = .ok (addPkcs7 x) := by
    unfold decryptCbc
    rw [if_neg (by omega), if_neg (by simp)]
    have h16 : ct.length / 16 = (addPkcs7 x).length / 16 := by omega
    rw [h16, hct]
    rw [decryptCbcGo_encryptCbcGo T _ (addPkcs7 x) (List.replicate 16 0)
      (by omega) (by simp) hinv']
  rw [henc]
  show decodeEnvelope T ('F' :: b64EncodeBytes ct) = .ok x
  unfold decodeEnvelope
  simp only [hnorm]
  rw [exceptOkBind]
  simp only [hdecchars]
  rw [if_neg hctne, if_neg (by omega)]
  simp only [hdec]
  rw [exceptOkBind]
  show Except.ok (stripPkcs7 (addPkcs7 x)) = Except.ok x
  rw [stripPkcs7_addPkcs7 x hlen]

set_option maxRecDepth 100000 in
/-- Witness for C1: the concrete tables `wTables` satisfy the block-inversion
hypothesis, and the envelope round-trip holds on the 16-byte plaintext
`List.range 16`. -/
theorem decodeEnvelope_encodeEnvelope_witness :
    (List.range 16).length % 16 = 0 ∧
    (∀ bl ∈ encBlockInputs wTables ((List.range 16).length / 16 + 1)
        (addPkcs7 (List.range 16)) (List.replicate 16 0),
      decryptBlockAuth wTables 1 (encryptBlockAuth wTables 10 bl) = bl) ∧
    (encodeEnvelope wTables (List.range 16)).bind (decodeEnvelope wTables) =
      Except.ok (List.range 16) := by
  have h2 : ∀ bl ∈ encBlockInputs wTables ((List.range 16).length / 16 + 1)
      (addPkcs7 (List.range 16)) (List.replicate 16 0),
      decryptBlockAuth wTables 1 (encryptBlockAuth wTables 10 bl) = bl := by
    decide
  exact ⟨by decide, h2,
    decodeEnvelope_encodeEnvelope wTables (List.range 16) (by decide) h2⟩

end Byd
